import Mathlib

/-!
Verification development for the LocalChain repository
(openpay-network/LocalChain).

The contract procedures under src/smart-contracts and src/unnamed are
embedded shallowly: JavaScript numbers that take part in balance or
price arithmetic become rationals, object stores become association
lists where the newest write shadows older entries (the reader of the
contract runtime delegates lookups to live storage), and chain appends
become explicit lists of block payloads.  Nondeterministic environment
inputs (Date.now(), generated transaction ids) are threaded as explicit
parameters.  The files lib/chain.js, lib/storage.js, lib/contract.js
and lib/keys.js are not part of the excerpt; where their behaviour is
needed it is modelled from the specification and marked as such.
-/

deriving instance DecidableEq for Except

namespace LocalChain

/-- Association-list lookup for a keyed store; the first (newest)
entry for a key wins, later writes are modelled as prepended pairs. -/
def getRec {V : Type} : List (String × V) → String → Option V
  | [], _ => none
  | (k, v) :: rest, key => if key = k then some v else getRec rest key

/-- Balance record written by the token contracts: the JavaScript
object with fields address, balance, updated
(src/smart-contracts/token.js lines 55-65). -/
structure BalanceRec where
  address : String
  balance : ℚ
  updated : ℕ
  deriving DecidableEq, Repr

namespace Token

/-- One storage.saveData call performed by a token procedure:
the key, the record written, and the encrypted option flag. -/
structure WriteOp where
  key : String
  value : BalanceRec
  encrypted : Bool
  deriving DecidableEq, Repr

/-- Data object passed to chain.addBlock by the token procedures.
Fields absent from a given transaction kind are modelled as none. -/
structure TxBlock where
  type : String
  from_ : Option String
  to_ : Option String
  amount : ℚ
  bridgeTxHash : Option String
  bridgeAddress : Option String
  timestamp : ℕ
  txId : String
  deriving DecidableEq, Repr

/-- Return object of the Token transfer procedure. -/
structure TransferResult where
  success : Bool
  txId : String
  fromBalance : ℚ
  toBalance : ℚ
  deriving DecidableEq, Repr

/-- Return object of the Token mint and burn procedures. -/
structure MintResult where
  success : Bool
  txId : String
  balance : ℚ
  deriving DecidableEq, Repr

/-- Store shape seen by the token procedures. -/
abbrev Store := List (String × BalanceRec)

/-- Outcome of one execution: the result or thrown error message, the
storage after the execution, and the traces of reader.get keys,
storage.saveData calls and chain.addBlock payloads it performed. -/
structure Run (α : Type) where
  result : Except String α
  store : Store
  reads : List String
  writes : List WriteOp
  blocks : List TxBlock
  deriving Repr

/-- The stored balance for a key, with the JavaScript or-default
object giving balance 0 when the record is absent
(src/smart-contracts/token.js line 42). -/
def storedBalance (store : Store) (key : String) : ℚ :=
  ((getRec store key).map (·.balance)).getD 0

/-- Embedding of transferProc (src/smart-contracts/token.js lines
34-91).  The two Date.now() calls of one execution are modelled by the
single parameter now, and the generated transaction id by txId. -/
def transferProc (store : Store) (now : ℕ) (txId : String)
    (from_ to_ : String) (amount : ℚ) : Run TransferResult :=
  if amount ≤ 0 then
    { result := .error "Transfer amount must be positive",
      store := store, reads := [], writes := [], blocks := [] }
  else
    let fromKey := "balance:" ++ from_
    let fromBalance := storedBalance store fromKey
    if fromBalance < amount then
      { result := .error ("Insufficient balance. Available: " ++ toString fromBalance),
        store := store, reads := [fromKey], writes := [], blocks := [] }
    else
      let toKey := "balance:" ++ to_
      let toBalance := storedBalance store toKey
      let newFromBalance : BalanceRec := ⟨from_, fromBalance - amount, now⟩
      let newToBalance : BalanceRec := ⟨to_, toBalance + amount, now⟩
      let store1 : Store := (fromKey, newFromBalance) :: store
      let store2 : Store := (toKey, newToBalance) :: store1
      let tx : TxBlock :=
        ⟨"token-transfer", some from_, some to_, amount, none, none, now, txId⟩
      { result := .ok ⟨true, txId, newFromBalance.balance, newToBalance.balance⟩,
        store := store2,
        reads := [fromKey, toKey],
        writes := [⟨fromKey, newFromBalance, false⟩, ⟨toKey, newToBalance, false⟩],
        blocks := [tx] }

/-- Embedding of mintProc (src/smart-contracts/token.js lines 100-134). -/
def mintProc (store : Store) (now : ℕ) (txId : String)
    (to_ : String) (amount : ℚ) (bridgeTxHash : Option String) : Run MintResult :=
  if amount ≤ 0 then
    { result := .error "Mint amount must be positive",
      store := store, reads := [], writes := [], blocks := [] }
  else
    let key := "balance:" ++ to_
    let balance := storedBalance store key
    let newBalance : BalanceRec := ⟨to_, balance + amount, now⟩
    { result := .ok ⟨true, txId, newBalance.balance⟩,
      store := (key, newBalance) :: store,
      reads := [key],
      writes := [⟨key, newBalance, false⟩],
      blocks := [⟨"token-mint", none, some to_, amount, bridgeTxHash, none, now, txId⟩] }

/-- Embedding of burnProc (src/smart-contracts/token.js lines 142-180). -/
def burnProc (store : Store) (now : ℕ) (txId : String)
    (from_ : String) (amount : ℚ) (bridgeAddress : Option String) : Run MintResult :=
  if amount ≤ 0 then
    { result := .error "Burn amount must be positive",
      store := store, reads := [], writes := [], blocks := [] }
  else
    let key := "balance:" ++ from_
    let balance := storedBalance store key
    if balance < amount then
      { result := .error ("Insufficient balance. Available: " ++ toString balance),
        store := store, reads := [key], writes := [], blocks := [] }
    else
      let newBalance : BalanceRec := ⟨from_, balance - amount, now⟩
      { result := .ok ⟨true, txId, newBalance.balance⟩,
        store := (key, newBalance) :: store,
        reads := [key],
        writes := [⟨key, newBalance, false⟩],
        blocks := [⟨"token-burn", some from_, none, amount, none, bridgeAddress, now, txId⟩] }

end Token

namespace PrivateToken

/-- Return object of the PrivateToken transfer procedure (no txId is
generated there, src/unnamed/part_000 lines 428-432). -/
structure TransferResult where
  success : Bool
  fromBalance : ℚ
  toBalance : ℚ
  deriving DecidableEq, Repr

/-- Return object of the PrivateToken mint and burn procedures. -/
structure BalanceResult where
  success : Bool
  balance : ℚ
  deriving DecidableEq, Repr

/-- Outcome of one PrivateToken execution; the procedures of
src/unnamed/part_000 lines 387-503 never call chain.addBlock, so the
blocks trace records any appends (always empty for them). -/
structure Run (α : Type) where
  result : Except String α
  store : Token.Store
  reads : List String
  writes : List Token.WriteOp
  blocks : List Token.TxBlock
  deriving Repr

/-- Embedding of the PrivateToken transferProc (src/unnamed/part_000
lines 387-433); both saves pass the encrypted true option. -/
def transferProc (store : Token.Store) (now : ℕ)
    (from_ to_ : String) (amount : ℚ) : Run TransferResult :=
  if amount ≤ 0 then
    { result := .error "Transfer amount must be positive",
      store := store, reads := [], writes := [], blocks := [] }
  else
    let fromKey := "balance:" ++ from_
    let fromBalance := Token.storedBalance store fromKey
    if fromBalance < amount then
      { result := .error ("Insufficient balance. Available: " ++ toString fromBalance),
        store := store, reads := [fromKey], writes := [], blocks := [] }
    else
      let toKey := "balance:" ++ to_
      let toBalance := Token.storedBalance store toKey
      let newFromBalance : BalanceRec := ⟨from_, fromBalance - amount, now⟩
      let newToBalance : BalanceRec := ⟨to_, toBalance + amount, now⟩
      { result := .ok ⟨true, newFromBalance.balance, newToBalance.balance⟩,
        store := (toKey, newToBalance) :: (fromKey, newFromBalance) :: store,
        reads := [fromKey, toKey],
        writes := [⟨fromKey, newFromBalance, true⟩, ⟨toKey, newToBalance, true⟩],
        blocks := [] }

/-- Embedding of the PrivateToken mintProc (src/unnamed/part_000
lines 445-468). -/
def mintProc (store : Token.Store) (now : ℕ)
    (to_ : String) (amount : ℚ) : Run BalanceResult :=
  if amount ≤ 0 then
    { result := .error "Mint amount must be positive",
      store := store, reads := [], writes := [], blocks := [] }
  else
    let key := "balance:" ++ to_
    let balance := Token.storedBalance store key
    let newBalance : BalanceRec := ⟨to_, balance + amount, now⟩
    { result := .ok ⟨true, newBalance.balance⟩,
      store := (key, newBalance) :: store,
      reads := [key],
      writes := [⟨key, newBalance, true⟩],
      blocks := [] }

/-- Embedding of the PrivateToken burnProc (src/unnamed/part_000
lines 476-503). -/
def burnProc (store : Token.Store) (now : ℕ)
    (from_ : String) (amount : ℚ) : Run BalanceResult :=
  if amount ≤ 0 then
    { result := .error "Burn amount must be positive",
      store := store, reads := [], writes := [], blocks := [] }
  else
    let key := "balance:" ++ from_
    let balance := Token.storedBalance store key
    if balance < amount then
      { result := .error ("Insufficient balance. Available: " ++ toString balance),
        store := store, reads := [key], writes := [], blocks := [] }
    else
      let newBalance : BalanceRec := ⟨from_, balance - amount, now⟩
      { result := .ok ⟨true, newBalance.balance⟩,
        store := (key, newBalance) :: store,
        reads := [key],
        writes := [⟨key, newBalance, true⟩],
        blocks := [] }

end PrivateToken

namespace Chat

/-- Message object created by sendMessageProc
(src/smart-contracts/chat.js lines 60-67).  JavaScript falsiness of a
field is modelled by the zero value of its type: an absent or zero
timestamp is 0 and an absent or empty string is the empty string.
Metadata objects are modelled as string-keyed string maps. -/
structure ChatMessage where
  id : String
  threadId : String
  role : String
  content : String
  timestamp : ℕ
  metadata : List (String × String)
  deriving DecidableEq, Repr

/-- Conversation thread record (src/smart-contracts/chat.js lines
45-52); the context object is modelled as a string-keyed map. -/
structure Thread where
  threadId : String
  userId : String
  messages : List ChatMessage
  createdAt : ℕ
  updatedAt : ℕ
  context : List (String × String)
  deriving DecidableEq, Repr

/-- Record stored under a user threads key
(src/smart-contracts/chat.js lines 77-78). -/
structure UserThreads where
  threads : List String
  deriving DecidableEq, Repr

/-- Values stored by the chat contracts, tagged by shape. -/
inductive ChatVal where
  | thread (t : Thread)
  | userThreads (u : UserThreads)
  deriving DecidableEq, Repr

/-- Store shape seen by the chat procedures. -/
abbrev Store := List (String × ChatVal)

/-- Read a thread record; a value of another shape reads as absent. -/
def getThread (store : Store) (key : String) : Option Thread :=
  match getRec store key with
  | some (.thread t) => some t
  | _ => none

/-- Read a user-threads record (same convention as getThread). -/
def getUserThreads (store : Store) (key : String) : Option UserThreads :=
  match getRec store key with
  | some (.userThreads u) => some u
  | _ => none

/-- Data object passed to chain.addBlock by the chat procedures. -/
structure ChatBlock where
  type : String
  threadId : String
  userId : String
  messageId : Option String
  role : Option String
  timestamp : ℕ
  deriving DecidableEq, Repr

/-- Return object of sendMessageProc. -/
structure SendResult where
  success : Bool
  message : ChatMessage
  threadId : String
  messageCount : ℕ
  deriving DecidableEq, Repr

/-- Outcome of one chat execution. -/
structure Run (α : Type) where
  result : Except String α
  store : Store
  blocks : List ChatBlock
  deriving Repr

/-- Embedding of sendMessageProc (src/smart-contracts/chat.js lines
33-100).  The generated message id is the parameter msgId and the
Date.now() calls of one execution are the parameter now. -/
def sendMessageProc (store : Store) (now : ℕ) (msgId : String)
    (threadId userId role content : String) (metadata : List (String × String)) :
    Run SendResult :=
  if threadId = "" ∨ userId = "" ∨ role = "" ∨ content = "" then
    { result := .error "Missing required fields: threadId, userId, role, content",
      store := store, blocks := [] }
  else if ¬ (role = "user" ∨ role = "assistant" ∨ role = "system") then
    { result := .error "Invalid role. Must be: user, assistant, or system",
      store := store, blocks := [] }
  else
    let thread := (getThread store ("thread:" ++ threadId)).getD
      ⟨threadId, userId, [], now, now, []⟩
    if thread.userId ≠ userId then
      { result := .error "Thread does not belong to this user",
        store := store, blocks := [] }
    else
      let message : ChatMessage := ⟨msgId, threadId, role, content, now, metadata⟩
      let thread1 :=
        { thread with messages := thread.messages ++ [message], updatedAt := now }
      let store1 : Store := ("thread:" ++ threadId, .thread thread1) :: store
      let userThreads :=
        (getUserThreads store1 ("user:" ++ userId ++ ":threads")).getD ⟨[]⟩
      let store2 : Store :=
        if threadId ∈ userThreads.threads then store1
        else ("user:" ++ userId ++ ":threads",
              .userThreads ⟨userThreads.threads ++ [threadId]⟩) :: store1
      { result := .ok ⟨true, message, threadId, thread1.messages.length⟩,
        store := store2,
        blocks := [⟨"chat-message", threadId, userId, some msgId, some role, now⟩] }

/-- The validation loop of getConversationProc over the sorted
messages: a repeated id raises the duplicate error and a message with
falsy timestamp, role or content raises the invalid-format error
(src/smart-contracts/chat.js lines 201-210). -/
def validateMsgs : List ChatMessage → List String → Option String
  | [], _ => none
  | m :: ms, seen =>
      if m.id ∈ seen then some ("Duplicate message ID found: " ++ m.id)
      else if m.timestamp = 0 ∨ m.role = "" ∨ m.content = "" then
        some ("Invalid message format: " ++ m.id)
      else validateMsgs ms (m.id :: seen)

/-- The timestamp comparator of the JavaScript sort call
(src/smart-contracts/chat.js line 198): a stable nondecreasing sort. -/
def msgLe (a b : ChatMessage) : Bool := a.timestamp ≤ b.timestamp

/-- Return object of getConversationProc. -/
structure ConversationResult where
  threadId : String
  userId : String
  messages : List ChatMessage
  context : List (String × String)
  createdAt : ℕ
  updatedAt : ℕ
  messageCount : ℕ
  totalMessages : ℕ
  deriving DecidableEq, Repr

/-- Embedding of getConversationProc (src/smart-contracts/chat.js
lines 177-227).  The limit argument is falsy when absent or zero, and
slice(-limit) keeps the last limit entries of the sorted list. -/
def getConversationProc (store : Store) (threadId userId : String)
    (limit : Option ℕ) : Run ConversationResult :=
  if threadId = "" ∨ userId = "" then
    { result := .error "Missing required fields: threadId, userId",
      store := store, blocks := [] }
  else
    match getThread store ("thread:" ++ threadId) with
    | none =>
        { result := .error ("Thread " ++ threadId ++ " not found"),
          store := store, blocks := [] }
    | some thread =>
        if thread.userId ≠ userId then
          { result := .error "Thread does not belong to this user",
            store := store, blocks := [] }
        else
          let messages := thread.messages
          let sortedMessages := messages.mergeSort msgLe
          match validateMsgs sortedMessages [] with
          | some e => { result := .error e, store := store, blocks := [] }
          | none =>
              let limitedMessages :=
                match limit with
                | some l =>
                    if l ≠ 0 then
                      sortedMessages.drop (sortedMessages.length - l)
                    else sortedMessages
                | none => sortedMessages
              { result := .ok ⟨threadId, userId, limitedMessages, thread.context,
                  thread.createdAt, thread.updatedAt,
                  messages.length, messages.length⟩,
                store := store, blocks := [] }

end Chat

/-- First index satisfying a predicate, the JavaScript findIndex with
the absent index -1 modelled as none. -/
def findIndex {α : Type} (p : α → Bool) : List α → Option ℕ
  | [] => none
  | a :: l => if p a then some 0 else (findIndex p l).map (· + 1)

namespace Wishlist

/-- Wish-list item object (src/smart-contracts/wishlist.js lines
53-65).  Nullable fields are options; JavaScript truthiness of
reservedBy is none-or-empty falsiness. -/
structure WishItem where
  id : String
  name : String
  description : String
  url : Option String
  price : Option ℚ
  priority : String
  status : String
  reservedBy : Option String
  reservedAt : Option ℕ
  createdAt : ℕ
  metadata : List (String × String)
  deriving DecidableEq, Repr

/-- Wish-list record stored per user (src/smart-contracts/wishlist.js
lines 45-50). -/
structure WishList where
  userId : String
  items : List WishItem
  createdAt : ℕ
  updatedAt : ℕ
  deriving DecidableEq, Repr

/-- One reservation entry pushed by reserveItemProc
(src/smart-contracts/wishlist.js lines 159-165). -/
structure ReservationEntry where
  itemId : String
  ownerId : String
  itemName : String
  reservedAt : ℕ
  status : String
  deriving DecidableEq, Repr

/-- Reservations record stored per reserver
(src/smart-contracts/wishlist.js lines 150-157). -/
structure ReservationRec where
  userId : String
  reservations : List ReservationEntry
  createdAt : ℕ
  updatedAt : ℕ
  deriving DecidableEq, Repr

/-- Values stored by the wishlist contracts, tagged by shape. -/
inductive WishVal where
  | list (w : WishList)
  | resv (r : ReservationRec)
  deriving DecidableEq, Repr

/-- Store shape seen by the wishlist procedures. -/
abbrev Store := List (String × WishVal)

/-- Read a wish-list record; another shape reads as absent. -/
def getWishList (store : Store) (key : String) : Option WishList :=
  match getRec store key with
  | some (.list w) => some w
  | _ => none

/-- Read a reservations record; another shape reads as absent. -/
def getResv (store : Store) (key : String) : Option ReservationRec :=
  match getRec store key with
  | some (.resv r) => some r
  | _ => none

/-- JavaScript truthiness of a nullable string field. -/
def strTruthy : Option String → Bool
  | none => false
  | some s => s ≠ ""

/-- Data object passed to chain.addBlock by the wishlist procedures;
fields absent from a given block kind are none. -/
structure WishBlock where
  type : String
  userId : Option String
  ownerId : Option String
  itemId : String
  itemName : Option String
  reservedBy : Option String
  oldStatus : Option String
  newStatus : Option String
  timestamp : ℕ
  deriving DecidableEq, Repr

/-- Return object of reserveItemProc. -/
structure ReserveResult where
  success : Bool
  item : WishItem
  ownerId : String
  reservedBy : String
  reservedAt : Option ℕ
  deriving DecidableEq, Repr

/-- Return object of updateStatusProc. -/
structure UpdateResult where
  success : Bool
  item : WishItem
  oldStatus : String
  newStatus : String
  deriving DecidableEq, Repr

/-- Outcome of one wishlist execution. -/
structure Run (α : Type) where
  result : Except String α
  store : Store
  blocks : List WishBlock
  deriving Repr

/-- Placeholder record for an index the procedures have already
checked to be in range. -/
def defaultItem : WishItem := ⟨"", "", "", none, none, "", "", none, none, 0, []⟩

/-- Embedding of reserveItemProc (src/smart-contracts/wishlist.js
lines 101-190).  The Date.now() calls of one execution are the
parameter now; the reservations read happens after the wish-list save
but on a distinct key namespace. -/
def reserveItemProc (store : Store) (now : ℕ)
    (ownerId itemId reservedBy : String) : Run ReserveResult :=
  if ownerId = "" ∨ itemId = "" ∨ reservedBy = "" then
    { result := .error "Missing required fields: ownerId, itemId, reservedBy",
      store := store, blocks := [] }
  else
    match getWishList store ("wishlist:" ++ ownerId) with
    | none =>
        { result := .error ("Wish list not found for user " ++ ownerId),
          store := store, blocks := [] }
    | some wishList =>
        match findIndex (fun item => item.id == itemId) wishList.items with
        | none =>
            { result := .error ("Item " ++ itemId ++ " not found in wish list"),
              store := store, blocks := [] }
        | some itemIndex =>
            let item := (wishList.items[itemIndex]?).getD defaultItem
            if item.status ≠ "available" then
              { result := .error ("Item is not available. Current status: " ++
                  item.status),
                store := store, blocks := [] }
            else if strTruthy item.reservedBy then
              { result := .error "Item is already reserved",
                store := store, blocks := [] }
            else if ownerId = reservedBy then
              { result := .error "Cannot reserve your own item",
                store := store, blocks := [] }
            else
              let newItem := { item with
                status := "reserved",
                reservedBy := some reservedBy, reservedAt := some now }
              let wishList1 := { wishList with
                items := wishList.items.set itemIndex newItem, updatedAt := now }
              let store1 : Store :=
                ("wishlist:" ++ ownerId, .list wishList1) :: store
              let reserverReservations :=
                (getResv store1 ("reservations:" ++ reservedBy)).getD
                  ⟨reservedBy, [], now, now⟩
              let reserverReservations1 := { reserverReservations with
                reservations := reserverReservations.reservations ++
                  [⟨itemId, ownerId, item.name, now, "reserved"⟩],
                updatedAt := now }
              let store2 : Store :=
                ("reservations:" ++ reservedBy, .resv reserverReservations1) ::
                  store1
              { result := .ok ⟨true, newItem, ownerId, reservedBy,
                  newItem.reservedAt⟩,
                store := store2,
                blocks := [⟨"wishlist-item-reserved", none, some ownerId, itemId,
                  some item.name, some reservedBy, none, none, now⟩] }

/-- Set the status of the first reservation entry matching the item
id: the JavaScript find-then-mutate of updateStatusProc
(src/smart-contracts/wishlist.js lines 242-247). -/
def setFirstStatus (itemId status : String) :
    List ReservationEntry → List ReservationEntry
  | [] => []
  | e :: es =>
      if e.itemId == itemId then { e with status := status } :: es
      else e :: setFirstStatus itemId status es

/-- Embedding of updateStatusProc (src/smart-contracts/wishlist.js
lines 199-278).  For a fulfilled or cancelled status the reserver's
reservation record is updated (and saved) before the reservation
fields of the item are cleared and the wish list is saved. -/
def updateStatusProc (store : Store) (now : ℕ)
    (userId itemId status : String) : Run UpdateResult :=
  if userId = "" ∨ itemId = "" ∨ status = "" then
    { result := .error "Missing required fields: userId, itemId, status",
      store := store, blocks := [] }
  else if ¬ (status = "available" ∨ status = "reserved" ∨
      status = "fulfilled" ∨ status = "cancelled") then
    { result := .error
        "Invalid status. Must be one of: available, reserved, fulfilled, cancelled",
      store := store, blocks := [] }
  else
    match getWishList store ("wishlist:" ++ userId) with
    | none =>
        { result := .error ("Wish list not found for user " ++ userId),
          store := store, blocks := [] }
    | some wishList =>
        match findIndex (fun item => item.id == itemId) wishList.items with
        | none =>
            { result := .error ("Item " ++ itemId ++ " not found in wish list"),
              store := store, blocks := [] }
        | some itemIndex =>
            let item := (wishList.items[itemIndex]?).getD defaultItem
            let oldStatus := item.status
            let item1 := { item with status := status }
            let storeR : Store :=
              if status = "fulfilled" ∨ status = "cancelled" then
                match item1.reservedBy with
                | some u =>
                    if u ≠ "" then
                      match getResv store ("reservations:" ++ u) with
                      | some rr =>
                          if rr.reservations.any (fun r => r.itemId == itemId) then
                            ("reservations:" ++ u,
                              .resv { rr with
                                reservations :=
                                  setFirstStatus itemId status rr.reservations,
                                updatedAt := now }) :: store
                          else store
                      | none => store
                    else store
                | none => store
              else store
            let item2 :=
              if status = "fulfilled" ∨ status = "cancelled" then
                { item1 with reservedBy := none, reservedAt := none }
              else item1
            let wishList1 := { wishList with
              items := wishList.items.set itemIndex item2, updatedAt := now }
            let store1 : Store := ("wishlist:" ++ userId, .list wishList1) :: storeR
            { result := .ok ⟨true, item2, oldStatus, status⟩,
              store := store1,
              blocks := [⟨"wishlist-status-updated", some userId, none, itemId,
                none, none, some oldStatus, some status, now⟩] }

end Wishlist

namespace BondingCurve

/-- Supported curve types (src/unnamed/part_000 lines 12-16). -/
inductive CurveType where
  | linear
  | polynomial
  | exponential
  deriving DecidableEq, Repr

/-- Curve configuration (src/unnamed/part_000 lines 29-45): the price
constant k, the polynomial exponent n (a natural exponent, as in the
spec formula and the examples), and the exponential rate r.
JavaScript floating-point numbers are idealized as real numbers. -/
structure Curve where
  curveType : CurveType
  k : ℝ
  n : ℕ
  r : ℝ

/-- Embedding of calculatePrice (src/unnamed/part_000 lines 50-61). -/
noncomputable def calculatePrice (c : Curve) (supply : ℝ) : ℝ :=
  match c.curveType with
  | .linear => c.k * supply
  | .polynomial => c.k * supply ^ c.n
  | .exponential => c.k * Real.exp (c.r * supply)

/-- Embedding of calculateIntegral (src/unnamed/part_000 lines 67-84). -/
noncomputable def calculateIntegral (c : Curve) (supply1 supply2 : ℝ) : ℝ :=
  match c.curveType with
  | .linear => (c.k / 2) * (supply2 * supply2 - supply1 * supply1)
  | .polynomial =>
      (c.k / (c.n + 1)) * (supply2 ^ (c.n + 1) - supply1 ^ (c.n + 1))
  | .exponential =>
      (c.k / c.r) * (Real.exp (c.r * supply2) - Real.exp (c.r * supply1))

/-- The absolute tolerance of the bisection (source constant 0.0001,
src/unnamed/part_000 line 93). -/
noncomputable def tolerance : ℝ := 1 / 10000

/-- The iteration cap of the bisection (source constant 100,
src/unnamed/part_000 line 94). -/
def maxIterations : ℕ := 100

open scoped Classical in
/-- The bisection loop of calculateTokensForPayment
(src/unnamed/part_000 lines 96-109), with the remaining iteration
count as fuel. -/
noncomputable def tokensLoop (c : Curve) (currentSupply paymentAmount : ℝ) :
    ℕ → ℝ → ℝ → ℝ
  | 0, low, high => (low + high) / 2 - currentSupply
  | fuel + 1, low, high =>
      let mid := (low + high) / 2
      let cost := calculateIntegral c currentSupply mid
      if |cost - paymentAmount| < tolerance then mid - currentSupply
      else if cost < paymentAmount then
        tokensLoop c currentSupply paymentAmount fuel mid high
      else tokensLoop c currentSupply paymentAmount fuel low mid

/-- Embedding of calculateTokensForPayment (src/unnamed/part_000
lines 89-112): bounded bisection from the initial bracket up to the
upper-bound estimate paymentAmount / k. -/
noncomputable def calculateTokensForPayment (c : Curve)
    (currentSupply paymentAmount : ℝ) : ℝ :=
  tokensLoop c currentSupply paymentAmount maxIterations currentSupply
    (currentSupply + paymentAmount / c.k)

open scoped Classical in
/-- One bracket-update step of the bisection: raise low to the
midpoint when the midpoint costs less than the payment, otherwise
lower high to the midpoint. -/
noncomputable def bracketStep (c : Curve) (currentSupply paymentAmount : ℝ)
    (lh : ℝ × ℝ) : ℝ × ℝ :=
  let mid := (lh.1 + lh.2) / 2
  if calculateIntegral c currentSupply mid < paymentAmount then (mid, lh.2)
  else (lh.1, mid)

/-- The bracket before iteration i, obtained by iterating the
bisection step from the initial bracket. -/
noncomputable def bracket (c : Curve) (currentSupply paymentAmount : ℝ)
    (i : ℕ) : ℝ × ℝ :=
  (bracketStep c currentSupply paymentAmount)^[i]
    (currentSupply, currentSupply + paymentAmount / c.k)

/-- Early-return test on a bracket: the midpoint's integral cost is
within the tolerance of the payment amount. -/
def HitPair (c : Curve) (currentSupply paymentAmount : ℝ) (lh : ℝ × ℝ) : Prop :=
  |calculateIntegral c currentSupply ((lh.1 + lh.2) / 2) - paymentAmount| <
    tolerance

/-- Early-return test of iteration i of the bisection. -/
def TokHit (c : Curve) (currentSupply paymentAmount : ℝ) (i : ℕ) : Prop :=
  HitPair c currentSupply paymentAmount (bracket c currentSupply paymentAmount i)

end BondingCurve

namespace Storage

/-- Modelled from the spec: the structured JSON-like values stored by
Storage.  The implementation file lib/storage.js is not part of the
excerpt, so the value domain follows section 3's opaque structured
payloads (nulls, booleans, numbers, strings, arrays, objects). -/
inductive JsonVal where
  | null
  | bool (b : Bool)
  | num (q : ℚ)
  | str (s : String)
  | arr (elems : List JsonVal)
  | obj (fields : List (String × JsonVal))
  deriving Repr

/-- Modelled from the spec: injective code of an integer as one
natural symbol of the canonical byte alphabet. -/
def intCode : ℤ → ℕ
  | .ofNat n => 2 * n
  | .negSucc n => 2 * n + 1

/-- Inverse of intCode. -/
def intDecode (c : ℕ) : ℤ :=
  if c % 2 = 0 then .ofNat (c / 2) else .negSucc ((c - 1) / 2)

/-- Modelled from the spec: canonical serialization of a string as a
length-prefixed run of character codes. -/
def encStr (s : String) : List ℕ := s.length :: s.data.map Char.toNat

mutual

/-- Modelled from the spec: the canonical serialization of section
4.2 — a tag symbol followed by a length-prefixed payload, chosen so
that decoding is a total function on the image. -/
def encode : JsonVal → List ℕ
  | .null => [0]
  | .bool b => [1, cond b 1 0]
  | .num q => [2, intCode q.num, q.den]
  | .str s => 3 :: encStr s
  | .arr l => 4 :: l.length :: encodeList l
  | .obj kvs => 5 :: kvs.length :: encodeObj kvs

/-- Serialization of array elements in order. -/
def encodeList : List JsonVal → List ℕ
  | [] => []
  | v :: vs => encode v ++ encodeList vs

/-- Serialization of object fields in order. -/
def encodeObj : List (String × JsonVal) → List ℕ
  | [] => []
  | (key, v) :: kvs => encStr key ++ encode v ++ encodeObj kvs

end

mutual

/-- Modelled from the spec: canonical deserialization; the fuel
argument bounds the nesting depth, one unit per decoded value. -/
def decode : ℕ → List ℕ → Option (JsonVal × List ℕ)
  | 0, _ => none
  | _ + 1, 0 :: rest => some (.null, rest)
  | _ + 1, 1 :: b :: rest =>
      if b = 1 then some (.bool true, rest)
      else if b = 0 then some (.bool false, rest)
      else none
  | _ + 1, 2 :: a :: d :: rest =>
      some (.num ((intDecode a : ℚ) / (d : ℚ)), rest)
  | _ + 1, 3 :: n :: rest =>
      if n ≤ rest.length then
        some (.str (String.mk ((rest.take n).map Char.ofNat)), rest.drop n)
      else none
  | fuel + 1, 4 :: n :: rest =>
      match decodeList fuel n rest with
      | some (l, rest1) => some (.arr l, rest1)
      | none => none
  | fuel + 1, 5 :: n :: rest =>
      match decodeObj fuel n rest with
      | some (kvs, rest1) => some (.obj kvs, rest1)
      | none => none
  | _ + 1, _ => none
termination_by fuel _bs => (fuel, 0)

/-- Deserialization of a known number of array elements. -/
def decodeList : ℕ → ℕ → List ℕ → Option (List JsonVal × List ℕ)
  | _, 0, bs => some ([], bs)
  | fuel, n + 1, bs =>
      match decode fuel bs with
      | some (v, rest) =>
          match decodeList fuel n rest with
          | some (vs, rest1) => some (v :: vs, rest1)
          | none => none
      | none => none
termination_by fuel n _bs => (fuel, n + 1)

/-- Deserialization of a known number of object fields. -/
def decodeObj : ℕ → ℕ → List ℕ → Option (List (String × JsonVal) × List ℕ)
  | _, 0, bs => some ([], bs)
  | fuel, n + 1, m :: rest =>
      if m ≤ rest.length then
        match decode fuel (rest.drop m) with
        | some (v, rest1) =>
            match decodeObj fuel n rest1 with
            | some (kvs, rest2) =>
                some ((String.mk ((rest.take m).map Char.ofNat), v) :: kvs, rest2)
            | none => none
        | none => none
      else none
  | _, _ + 1, [] => none
termination_by fuel n _bs => (fuel, n + 1)

end

/-- Modelled from the spec: the symmetric half of envelope encryption.
A fresh symmetric key shifts every byte, so every ciphertext byte
differs from its plaintext byte. -/
def symEncrypt (key : ℕ) (bs : List ℕ) : List ℕ := bs.map (· + (key + 1))

/-- Inverse shift of symEncrypt under the same key. -/
def symDecrypt (key : ℕ) (bs : List ℕ) : List ℕ := bs.map (· - (key + 1))

/-- Modelled from the spec: wrapping the fresh symmetric key with the
holder's key-pair secret. -/
def wrapKey (secret key : ℕ) : ℕ := key + secret

/-- Inverse of wrapKey under the same secret. -/
def unwrapKey (secret wrapped : ℕ) : ℕ := wrapped - secret

/-- Modelled from the spec: content digest of the plaintext canonical
bytes (section 4.2); an injective-in-practice fold stands in for
SHA-256. -/
def digest (bs : List ℕ) : ℕ := bs.foldl (fun a b => a * 1000003 + b + 1) 0

/-- Modelled from the spec: one persisted record (section 6) — the
encrypted flag, payload bytes (ciphertext or canonical plaintext),
wrapped key (present iff encrypted), and registering block hash. -/
structure StorageRec where
  encrypted : Bool
  payload : List ℕ
  wrappedKey : Option ℕ
  registeringBlockHash : ℕ
  deriving Repr

/-- Modelled from the spec: a storage-write chain block carrying the
record id and the plaintext content digest. -/
structure WriteBlock where
  id : String
  contentDigest : ℕ
  deriving DecidableEq, Repr

/-- Modelled from the spec: Storage state — the holder's key-pair
secret, the records keyed by id, and the chain of write blocks. -/
structure StorageState where
  secret : ℕ
  records : List (String × StorageRec)
  chain : List WriteBlock
  deriving Repr

/-- Modelled from the spec: saveData (section 4.2) — serialize
canonically, envelope-encrypt when requested using the fresh symmetric
key, register the plaintext digest with the chain, and persist the
record under the id. -/
def saveData (st : StorageState) (id : String) (v : JsonVal)
    (encrypted : Bool) (freshKey : ℕ) : StorageState :=
  let canonical := encode v
  let payload := if encrypted then symEncrypt freshKey canonical else canonical
  let wrapped := if encrypted then some (wrapKey st.secret freshKey) else none
  { st with
    records := (id, ⟨encrypted, payload, wrapped, st.chain.length⟩) :: st.records,
    chain := st.chain ++ [⟨id, digest canonical⟩] }

/-- Modelled from the spec: loadData — read the record, decrypt when
encrypted using the symmetric key unwrapped with the private secret,
and decode the canonical bytes. -/
def loadData (st : StorageState) (id : String) : Option JsonVal :=
  match getRec st.records id with
  | none => none
  | some r =>
      let bytes :=
        if r.encrypted then
          match r.wrappedKey with
          | some wk => symDecrypt (unwrapKey st.secret wk) r.payload
          | none => r.payload
        else r.payload
      match decode bytes.length bytes with
      | some (v, []) => some v
      | _ => none

end Storage

end LocalChain

-- ===================== theorems =====================

namespace LocalChain

/-- Prefixing with a fixed key namespace is injective in the suffix. -/
theorem string_prefix_inj {p a b : String} (h : p ++ a = p ++ b) : a = b := by
  have hd : (p ++ a).data = (p ++ b).data := congrArg String.data h
  rw [String.data_append, String.data_append] at hd
  exact String.ext (List.append_cancel_left hd)

/-- Looking up a key in a store after an unrelated write sees through
the new entry. -/
theorem getRec_cons_ne {V : Type} (store : List (String × V)) {k key : String}
    (v : V) (h : key ≠ k) : getRec ((k, v) :: store) key = getRec store key := by
  simp [getRec, h]

/-- Looking up the key just written returns the written record. -/
theorem getRec_cons_self {V : Type} (store : List (String × V)) (k : String)
    (v : V) : getRec ((k, v) :: store) k = some v := by
  simp [getRec]

/-- C1: a Token transfer with a positive amount not exceeding the
sender's stored balance saves the sender's balance decreased by the
amount, saves the receiver's balance increased by the amount, and
appends exactly one audit block of type token-transfer carrying that
amount; for distinct sender and receiver the stored balances after the
execution are exactly the decreased and increased ones. -/
theorem token_transfer_correct (store : Token.Store) (now : ℕ)
    (txId from_ to_ : String) (amount : ℚ)
    (hpos : 0 < amount)
    (hle : amount ≤ Token.storedBalance store ("balance:" ++ from_)) :
    (Token.transferProc store now txId from_ to_ amount).result =
      .ok ⟨true, txId, Token.storedBalance store ("balance:" ++ from_) - amount,
        Token.storedBalance store ("balance:" ++ to_) + amount⟩ ∧
    (Token.transferProc store now txId from_ to_ amount).writes =
      [⟨"balance:" ++ from_,
         ⟨from_, Token.storedBalance store ("balance:" ++ from_) - amount, now⟩, false⟩,
       ⟨"balance:" ++ to_,
         ⟨to_, Token.storedBalance store ("balance:" ++ to_) + amount, now⟩, false⟩] ∧
    (Token.transferProc store now txId from_ to_ amount).blocks =
      [⟨"token-transfer", some from_, some to_, amount, none, none, now, txId⟩] ∧
    (from_ ≠ to_ →
      getRec (Token.transferProc store now txId from_ to_ amount).store
          ("balance:" ++ from_) =
        some ⟨from_, Token.storedBalance store ("balance:" ++ from_) - amount, now⟩ ∧
      getRec (Token.transferProc store now txId from_ to_ amount).store
          ("balance:" ++ to_) =
        some ⟨to_, Token.storedBalance store ("balance:" ++ to_) + amount, now⟩) := by
  have h1 : ¬ amount ≤ 0 := not_le.mpr hpos
  have h2 : ¬ Token.storedBalance store ("balance:" ++ from_) < amount := not_lt.mpr hle
  refine ⟨?_, ?_, ?_, ?_⟩ <;>
    simp only [Token.transferProc, h1, h2, if_false, if_neg h1, if_neg h2]
  · intro hne
    have hkeys : ("balance:" ++ from_ : String) ≠ "balance:" ++ to_ := by
      intro hk; exact hne (string_prefix_inj hk)
    constructor
    · rw [getRec_cons_ne _ _ hkeys, getRec_cons_self]
    · rw [getRec_cons_self]

/-- C1 witness: alice holding 100 transfers 40 to bob holding nothing,
yielding alice 60, bob 40, and a single token-transfer block with
amount 40. -/
theorem token_transfer_correct_witness :
    (Token.transferProc [("balance:alice", ⟨"alice", 100, 0⟩)] 1 "tx-1"
        "alice" "bob" 40).result = .ok ⟨true, "tx-1", 60, 40⟩ ∧
    getRec (Token.transferProc [("balance:alice", ⟨"alice", 100, 0⟩)] 1 "tx-1"
        "alice" "bob" 40).store "balance:alice" = some ⟨"alice", 60, 1⟩ ∧
    getRec (Token.transferProc [("balance:alice", ⟨"alice", 100, 0⟩)] 1 "tx-1"
        "alice" "bob" 40).store "balance:bob" = some ⟨"bob", 40, 1⟩ ∧
    (Token.transferProc [("balance:alice", ⟨"alice", 100, 0⟩)] 1 "tx-1"
        "alice" "bob" 40).blocks =
      [⟨"token-transfer", some "alice", some "bob", 40, none, none, 1, "tx-1"⟩] := by
  have hkey : ("balance:" ++ "alice" : String) = "balance:alice" := rfl
  have hkey2 : ("balance:" ++ "bob" : String) = "balance:bob" := rfl
  have e1 : Token.storedBalance [("balance:alice", ⟨"alice", 100, 0⟩)]
      "balance:alice" = 100 := by norm_num [Token.storedBalance, getRec]
  have e2 : Token.storedBalance [("balance:alice", ⟨"alice", 100, 0⟩)]
      "balance:bob" = 0 := by simp [Token.storedBalance, getRec]
  have h := token_transfer_correct [("balance:alice", ⟨"alice", 100, 0⟩)] 1 "tx-1"
    "alice" "bob" 40 (by norm_num) (by rw [hkey, e1]; norm_num)
  rw [hkey, hkey2, e1, e2] at h
  obtain ⟨h1, _, h3, h4⟩ := h
  obtain ⟨h5, h6⟩ := h4 (by simp)
  norm_num at h1 h5 h6
  exact ⟨h1, h5, h6, h3⟩

/-- An insufficient-balance message never coincides with the
positivity message, whatever balance is interpolated. -/
theorem insufficient_msg_ne (s : String) :
    ("Insufficient balance. Available: " ++ s) ≠ "Transfer amount must be positive" := by
  intro h
  have h1 : ("Insufficient balance. Available: " ++ s).data.head? = some 'I' := by
    rw [String.data_append]; rfl
  rw [h] at h1
  exact absurd (Option.some.inj h1) (by decide)

/-- C3: the Token transfer procedure fails with the positivity error
iff the amount is not positive; given a positive amount it fails with
the insufficient-balance error iff the sender's stored balance is
below the amount; and any failing execution performs no balance write,
appends no block, and leaves the storage unchanged. -/
theorem token_transfer_error_cases (store : Token.Store) (now : ℕ)
    (txId from_ to_ : String) (amount : ℚ) :
    ((Token.transferProc store now txId from_ to_ amount).result =
        .error "Transfer amount must be positive" ↔ amount ≤ 0) ∧
    (0 < amount →
      ((Token.transferProc store now txId from_ to_ amount).result =
          .error ("Insufficient balance. Available: " ++
            toString (Token.storedBalance store ("balance:" ++ from_))) ↔
        Token.storedBalance store ("balance:" ++ from_) < amount)) ∧
    (∀ e, (Token.transferProc store now txId from_ to_ amount).result = .error e →
      (Token.transferProc store now txId from_ to_ amount).writes = [] ∧
      (Token.transferProc store now txId from_ to_ amount).blocks = [] ∧
      (Token.transferProc store now txId from_ to_ amount).store = store) := by
  by_cases h1 : amount ≤ 0
  · refine ⟨by simp [Token.transferProc, h1], ?_, ?_⟩
    · intro hpos; exact absurd hpos (not_lt.mpr h1)
    · intro e _; simp [Token.transferProc, h1]
  · by_cases h2 : Token.storedBalance store ("balance:" ++ from_) < amount
    · refine ⟨?_, ?_, ?_⟩
      · simp only [Token.transferProc, if_neg h1, if_pos h2]
        constructor
        · intro h; exact absurd (Except.error.inj h) (insufficient_msg_ne _)
        · intro h; exact absurd h h1
      · intro _; simp [Token.transferProc, h1, h2]
      · intro e _; simp [Token.transferProc, h1, h2]
    · refine ⟨?_, ?_, ?_⟩
      · simp only [Token.transferProc, if_neg h1, if_neg h2]
        constructor
        · intro h; exact absurd h (by simp)
        · intro h; exact absurd h h1
      · intro _
        simp only [Token.transferProc, if_neg h1, if_neg h2]
        constructor
        · intro h; exact absurd h (by simp)
        · intro h; exact absurd h h2
      · intro e he
        simp only [Token.transferProc, if_neg h1, if_neg h2] at he
        exact absurd he (by simp)

/-- C3 witness: a non-positive and an over-balance transfer fail with
the respective messages and leave the store untouched. -/
theorem token_transfer_error_cases_witness :
    (Token.transferProc [("balance:alice", ⟨"alice", 100, 0⟩)] 1 "tx"
        "alice" "bob" (-5)).result = .error "Transfer amount must be positive" ∧
    (Token.transferProc [("balance:alice", ⟨"alice", 100, 0⟩)] 1 "tx"
        "alice" "bob" 200).result =
      .error ("Insufficient balance. Available: " ++ toString (100 : ℚ)) ∧
    (Token.transferProc [("balance:alice", ⟨"alice", 100, 0⟩)] 1 "tx"
        "alice" "bob" 200).store = [("balance:alice", ⟨"alice", 100, 0⟩)] := by
  have hkey : ("balance:" ++ "alice" : String) = "balance:alice" := rfl
  have e1 : Token.storedBalance [("balance:alice", ⟨"alice", 100, 0⟩)]
      "balance:alice" = 100 := by norm_num [Token.storedBalance, getRec]
  have hA := token_transfer_error_cases [("balance:alice", ⟨"alice", 100, 0⟩)] 1 "tx"
    "alice" "bob" (-5)
  have hB := token_transfer_error_cases [("balance:alice", ⟨"alice", 100, 0⟩)] 1 "tx"
    "alice" "bob" 200
  rw [hkey, e1] at hB
  have hBerr := (hB.2.1 (by norm_num)).mpr (by norm_num)
  exact ⟨hA.1.mpr (by norm_num), hBerr, (hB.2.2 _ hBerr).2.2⟩

/-- C2 counterexample: at a concrete successful execution the Token
mint procedure performs exactly one balance read and one balance write
(the claim demands two of each), and the PrivateToken transfer
procedure appends no audit block (the claim demands one). -/
theorem token_counts_counterexample :
    (Token.mintProc [] 1 "m" "bob" 10 none).result.isOk = true ∧
    (Token.mintProc [] 1 "m" "bob" 10 none).reads.length = 1 ∧
    (Token.mintProc [] 1 "m" "bob" 10 none).writes.length = 1 ∧
    ¬ (Token.mintProc [] 1 "m" "bob" 10 none).reads.length = 2 ∧
    (PrivateToken.transferProc [("balance:alice", ⟨"alice", 100, 0⟩)] 1
        "alice" "bob" 40).result.isOk = true ∧
    (PrivateToken.transferProc [("balance:alice", ⟨"alice", 100, 0⟩)] 1
        "alice" "bob" 40).blocks.length = 0 ∧
    ¬ (PrivateToken.transferProc [("balance:alice", ⟨"alice", 100, 0⟩)] 1
        "alice" "bob" 40).blocks.length = 1 := by
  have h10 : ¬ ((10 : ℚ) ≤ 0) := by norm_num
  have h40 : ¬ ((40 : ℚ) ≤ 0) := by norm_num
  have hbal : ¬ (Token.storedBalance [("balance:alice", ⟨"alice", 100, 0⟩)]
      "balance:alice" < 40) := by
    norm_num [Token.storedBalance, getRec]
  refine ⟨?_, ?_, ?_, ?_, ?_, ?_, ?_⟩ <;>
    simp [Token.mintProc, PrivateToken.transferProc, h10, h40, hbal,
      Except.isOk, Except.toBool]

/-- C2 amended: on successful execution the transfer procedures of
both token contracts perform exactly two balance reads and two balance
writes, while mint and burn perform exactly one balance read and one
balance write; each Token procedure appends exactly one audit block
and each PrivateToken procedure appends none; and each procedure
succeeds exactly when its positivity check (and, for transfer and
burn, its sufficiency check) passes. -/
theorem token_counts_amended (store : Token.Store) (now : ℕ) (txId : String)
    (from_ to_ : String) (amount : ℚ) (bridgeTxHash bridgeAddress : Option String) :
    ((Token.transferProc store now txId from_ to_ amount).result.isOk = true ↔
      0 < amount ∧ amount ≤ Token.storedBalance store ("balance:" ++ from_)) ∧
    ((Token.transferProc store now txId from_ to_ amount).result.isOk = true →
      (Token.transferProc store now txId from_ to_ amount).reads.length = 2 ∧
      (Token.transferProc store now txId from_ to_ amount).writes.length = 2 ∧
      (Token.transferProc store now txId from_ to_ amount).blocks.length = 1) ∧
    ((Token.mintProc store now txId to_ amount bridgeTxHash).result.isOk = true ↔
      0 < amount) ∧
    ((Token.mintProc store now txId to_ amount bridgeTxHash).result.isOk = true →
      (Token.mintProc store now txId to_ amount bridgeTxHash).reads.length = 1 ∧
      (Token.mintProc store now txId to_ amount bridgeTxHash).writes.length = 1 ∧
      (Token.mintProc store now txId to_ amount bridgeTxHash).blocks.length = 1) ∧
    ((Token.burnProc store now txId from_ amount bridgeAddress).result.isOk = true ↔
      0 < amount ∧ amount ≤ Token.storedBalance store ("balance:" ++ from_)) ∧
    ((Token.burnProc store now txId from_ amount bridgeAddress).result.isOk = true →
      (Token.burnProc store now txId from_ amount bridgeAddress).reads.length = 1 ∧
      (Token.burnProc store now txId from_ amount bridgeAddress).writes.length = 1 ∧
      (Token.burnProc store now txId from_ amount bridgeAddress).blocks.length = 1) ∧
    ((PrivateToken.transferProc store now from_ to_ amount).result.isOk = true ↔
      0 < amount ∧ amount ≤ Token.storedBalance store ("balance:" ++ from_)) ∧
    ((PrivateToken.transferProc store now from_ to_ amount).result.isOk = true →
      (PrivateToken.transferProc store now from_ to_ amount).reads.length = 2 ∧
      (PrivateToken.transferProc store now from_ to_ amount).writes.length = 2 ∧
      (PrivateToken.transferProc store now from_ to_ amount).blocks.length = 0) ∧
    ((PrivateToken.mintProc store now to_ amount).result.isOk = true ↔ 0 < amount) ∧
    ((PrivateToken.mintProc store now to_ amount).result.isOk = true →
      (PrivateToken.mintProc store now to_ amount).reads.length = 1 ∧
      (PrivateToken.mintProc store now to_ amount).writes.length = 1 ∧
      (PrivateToken.mintProc store now to_ amount).blocks.length = 0) ∧
    ((PrivateToken.burnProc store now from_ amount).result.isOk = true ↔
      0 < amount ∧ amount ≤ Token.storedBalance store ("balance:" ++ from_)) ∧
    ((PrivateToken.burnProc store now from_ amount).result.isOk = true →
      (PrivateToken.burnProc store now from_ amount).reads.length = 1 ∧
      (PrivateToken.burnProc store now from_ amount).writes.length = 1 ∧
      (PrivateToken.burnProc store now from_ amount).blocks.length = 0) := by
  by_cases h1 : amount ≤ 0
  · have h1p : ¬ (0 < amount) := not_lt.mpr h1
    refine ⟨?_, ?_, ?_, ?_, ?_, ?_, ?_, ?_, ?_, ?_, ?_, ?_⟩ <;>
      simp [Token.transferProc, Token.mintProc, Token.burnProc,
        PrivateToken.transferProc, PrivateToken.mintProc, PrivateToken.burnProc,
        h1, h1p, Except.isOk, Except.toBool]
  · have h1p : 0 < amount := not_le.mp h1
    by_cases h2 : Token.storedBalance store ("balance:" ++ from_) < amount
    · have h2le : ¬ (amount ≤ Token.storedBalance store ("balance:" ++ from_)) :=
        not_le.mpr h2
      refine ⟨?_, ?_, ?_, ?_, ?_, ?_, ?_, ?_, ?_, ?_, ?_, ?_⟩ <;>
        simp [Token.transferProc, Token.mintProc, Token.burnProc,
          PrivateToken.transferProc, PrivateToken.mintProc, PrivateToken.burnProc,
          h1, h1p, h2, h2le, Except.isOk, Except.toBool]
    · have h2le : amount ≤ Token.storedBalance store ("balance:" ++ from_) :=
        not_lt.mp h2
      refine ⟨?_, ?_, ?_, ?_, ?_, ?_, ?_, ?_, ?_, ?_, ?_, ?_⟩ <;>
        simp [Token.transferProc, Token.mintProc, Token.burnProc,
          PrivateToken.transferProc, PrivateToken.mintProc, PrivateToken.burnProc,
          h1, h1p, h2, h2le, Except.isOk, Except.toBool]

/-- C2 amended witness: concrete successful executions of all six
procedures exhibit the amended read, write and block counts. -/
theorem token_counts_amended_witness :
    (Token.transferProc [("balance:alice", ⟨"alice", 100, 0⟩)] 1 "tx"
        "alice" "bob" 40).reads.length = 2 ∧
    (Token.transferProc [("balance:alice", ⟨"alice", 100, 0⟩)] 1 "tx"
        "alice" "bob" 40).writes.length = 2 ∧
    (Token.transferProc [("balance:alice", ⟨"alice", 100, 0⟩)] 1 "tx"
        "alice" "bob" 40).blocks.length = 1 ∧
    (Token.mintProc [("balance:alice", ⟨"alice", 100, 0⟩)] 1 "tx"
        "bob" 40 none).reads.length = 1 ∧
    (Token.burnProc [("balance:alice", ⟨"alice", 100, 0⟩)] 1 "tx"
        "alice" 40 none).writes.length = 1 ∧
    (Token.burnProc [("balance:alice", ⟨"alice", 100, 0⟩)] 1 "tx"
        "alice" 40 none).blocks.length = 1 ∧
    (PrivateToken.transferProc [("balance:alice", ⟨"alice", 100, 0⟩)] 1
        "alice" "bob" 40).writes.length = 2 ∧
    (PrivateToken.transferProc [("balance:alice", ⟨"alice", 100, 0⟩)] 1
        "alice" "bob" 40).blocks.length = 0 ∧
    (PrivateToken.mintProc [("balance:alice", ⟨"alice", 100, 0⟩)] 1
        "bob" 40).reads.length = 1 ∧
    (PrivateToken.burnProc [("balance:alice", ⟨"alice", 100, 0⟩)] 1
        "alice" 40).blocks.length = 0 := by
  have hkey : ("balance:" ++ "alice" : String) = "balance:alice" := rfl
  have e1 : Token.storedBalance [("balance:alice", ⟨"alice", 100, 0⟩)]
      "balance:alice" = 100 := by norm_num [Token.storedBalance, getRec]
  have h := token_counts_amended [("balance:alice", ⟨"alice", 100, 0⟩)] 1 "tx"
    "alice" "bob" 40 none none
  rw [hkey, e1] at h
  obtain ⟨i1, c1, i2, c2, i3, c3, i4, c4, i5, c5, i6, c6⟩ := h
  have s1 := c1 (i1.mpr (by norm_num))
  have s2 := c2 (i2.mpr (by norm_num))
  have s3 := c3 (i3.mpr (by norm_num))
  have s4 := c4 (i4.mpr (by norm_num))
  have s5 := c5 (i5.mpr (by norm_num))
  have s6 := c6 (i6.mpr (by norm_num))
  exact ⟨s1.1, s1.2.1, s1.2.2, s2.1, s3.2.1, s3.2.2, s4.2.1, s4.2.2, s5.1, s6.2.2⟩

/-- Strings whose first characters differ are distinct. -/
theorem ne_of_head_char {s t : String} (c d : Char) (hs : s.data.head? = some c)
    (ht : t.data.head? = some d) (hcd : c ≠ d) : s ≠ t := by
  intro h; rw [h, ht] at hs; exact hcd (Option.some.inj hs.symm)

/-- Reading a thread key after an unrelated write sees through it. -/
theorem getThread_cons_ne (store : Chat.Store) (k key : String) (v : Chat.ChatVal)
    (h : key ≠ k) : Chat.getThread ((k, v) :: store) key = Chat.getThread store key := by
  rw [Chat.getThread, Chat.getThread, getRec_cons_ne _ _ h]

/-- Reading the thread key just written returns the written thread. -/
theorem getThread_cons_self (store : Chat.Store) (k : String) (t : Chat.Thread) :
    Chat.getThread ((k, .thread t) :: store) k = some t := by
  rw [Chat.getThread, getRec_cons_self]

/-- Reading a user-threads key after an unrelated write sees through it. -/
theorem getUserThreads_cons_ne (store : Chat.Store) (k key : String)
    (v : Chat.ChatVal) (h : key ≠ k) :
    Chat.getUserThreads ((k, v) :: store) key = Chat.getUserThreads store key := by
  rw [Chat.getUserThreads, Chat.getUserThreads, getRec_cons_ne _ _ h]

/-- Reading the user-threads key just written returns the new record. -/
theorem getUserThreads_cons_self (store : Chat.Store) (k : String)
    (u : Chat.UserThreads) :
    Chat.getUserThreads ((k, .userThreads u) :: store) k = some u := by
  rw [Chat.getUserThreads, getRec_cons_self]

/-- C8 counterexample: with no stored thread but an invalid role the
send-message procedure fails (with the invalid-role error, not a
not-found error) and creates no thread at all. -/
theorem chat_send_message_counterexample :
    Chat.getThread ([] : Chat.Store) ("thread:" ++ "t1") = none ∧
    (Chat.sendMessageProc [] 1 "m1" "t1" "u1" "bogus" "hi" []).result =
      .error "Invalid role. Must be: user, assistant, or system" ∧
    (Chat.sendMessageProc [] 1 "m1" "t1" "u1" "bogus" "hi" []).store = [] := by
  refine ⟨rfl, ?_, ?_⟩ <;> decide

/-- C8 amended: given present required fields and a valid role, a
send-message call on a threadId with no stored thread record succeeds
(so in particular never fails with a not-found error): it stores a new
thread owned by the calling user whose messages are exactly the single
new message, and registers the threadId in the caller's thread list;
moreover, for arbitrary state and arguments, the thread-ownership
error is raised only when a stored thread's userId differs from the
caller's userId. -/
theorem chat_send_message_thread_cases (store : Chat.Store) (now : ℕ)
    (msgId threadId userId role content : String)
    (metadata : List (String × String)) :
    (threadId ≠ "" → userId ≠ "" → content ≠ "" →
     (role = "user" ∨ role = "assistant" ∨ role = "system") →
     Chat.getThread store ("thread:" ++ threadId) = none →
     (Chat.sendMessageProc store now msgId threadId userId role content
         metadata).result =
       .ok ⟨true, ⟨msgId, threadId, role, content, now, metadata⟩, threadId, 1⟩ ∧
     Chat.getThread
         (Chat.sendMessageProc store now msgId threadId userId role content
           metadata).store ("thread:" ++ threadId) =
       some ⟨threadId, userId, [⟨msgId, threadId, role, content, now, metadata⟩],
         now, now, []⟩ ∧
     threadId ∈ ((Chat.getUserThreads
         (Chat.sendMessageProc store now msgId threadId userId role content
           metadata).store ("user:" ++ userId ++ ":threads")).getD ⟨[]⟩).threads) ∧
    ((Chat.sendMessageProc store now msgId threadId userId role content
        metadata).result = .error "Thread does not belong to this user" →
      ∃ t, Chat.getThread store ("thread:" ++ threadId) = some t ∧
        t.userId ≠ userId) := by
  constructor
  · intro ht hu hc hrole habsent
    have hcond : ¬ (threadId = "" ∨ userId = "" ∨ role = "" ∨ content = "") := by
      rcases hrole with h | h | h <;> subst h <;> simp [ht, hu, hc]
    have hrole2 : ¬ ¬ (role = "user" ∨ role = "assistant" ∨ role = "system") :=
      not_not_intro hrole
    have hkne : ("user:" ++ userId ++ ":threads" : String) ≠ "thread:" ++ threadId :=
      ne_of_head_char 'u' 't'
        (by rw [String.data_append, String.data_append]; rfl)
        (by rw [String.data_append]; rfl) (by decide)
    simp only [Chat.sendMessageProc, if_neg hcond, if_neg hrole2, habsent,
      Option.getD_none]
    have howner : ¬ ((⟨threadId, userId, [], now, now, []⟩ : Chat.Thread).userId ≠
        userId) := by simp
    simp only [if_neg howner, List.nil_append, List.length_cons, List.length_nil]
    simp only [getUserThreads_cons_ne _ _ _ _ hkne]
    by_cases hmem : threadId ∈ ((Chat.getUserThreads store
        ("user:" ++ userId ++ ":threads")).getD ⟨[]⟩).threads
    · simp only [if_pos hmem]
      exact ⟨trivial, getThread_cons_self _ _ _, hmem⟩
    · simp only [if_neg hmem]
      refine ⟨trivial, ?_, ?_⟩
      · rw [getThread_cons_ne _ _ _ _ (Ne.symm hkne), getThread_cons_self]
      · rw [getUserThreads_cons_self]
        simp
  · intro herr
    by_cases hcond : threadId = "" ∨ userId = "" ∨ role = "" ∨ content = ""
    · simp only [Chat.sendMessageProc, if_pos hcond] at herr
      exact absurd (Except.error.inj herr) (by decide)
    · by_cases hrole2 : ¬ (role = "user" ∨ role = "assistant" ∨ role = "system")
      · simp only [Chat.sendMessageProc, if_neg hcond, if_pos hrole2] at herr
        exact absurd (Except.error.inj herr) (by decide)
      · match hth : Chat.getThread store ("thread:" ++ threadId) with
        | none =>
            simp only [Chat.sendMessageProc, if_neg hcond, if_neg hrole2, hth,
              Option.getD_none] at herr
            by_cases howner : (⟨threadId, userId, [], now, now, []⟩ :
                Chat.Thread).userId ≠ userId
            · exact absurd rfl howner
            · simp only [if_neg howner] at herr
              exact absurd herr (by simp)
        | some t =>
            refine ⟨t, rfl, ?_⟩
            simp only [Chat.sendMessageProc, if_neg hcond, if_neg hrole2, hth,
              Option.getD_some] at herr
            by_cases howner : t.userId ≠ userId
            · exact howner
            · simp only [if_neg howner] at herr
              exact absurd herr (by simp)

/-- C8 amended witness: sending a first message to a fresh thread on
an empty store succeeds, stores the singleton thread for the caller
and registers the thread id in the caller's thread list. -/
theorem chat_send_message_thread_cases_witness :
    (Chat.sendMessageProc [] 7 "m1" "t1" "u1" "user" "hi" []).result =
      .ok ⟨true, ⟨"m1", "t1", "user", "hi", 7, []⟩, "t1", 1⟩ ∧
    Chat.getThread (Chat.sendMessageProc [] 7 "m1" "t1" "u1" "user" "hi" []).store
        ("thread:" ++ "t1") =
      some ⟨"t1", "u1", [⟨"m1", "t1", "user", "hi", 7, []⟩], 7, 7, []⟩ ∧
    "t1" ∈ ((Chat.getUserThreads
        (Chat.sendMessageProc [] 7 "m1" "t1" "u1" "user" "hi" []).store
        ("user:" ++ "u1" ++ ":threads")).getD ⟨[]⟩).threads := by
  have h := (chat_send_message_thread_cases [] 7 "m1" "t1" "u1" "user" "hi" []).1
    (by decide) (by decide) (by decide) (Or.inl rfl) rfl
  exact h

/-- The chat validation loop accepts exactly the message lists whose
ids are pairwise distinct and unseen and whose messages all carry a
truthy timestamp, role and content. -/
theorem validateMsgs_eq_none_iff (l : List Chat.ChatMessage) (seen : List String) :
    Chat.validateMsgs l seen = none ↔
      ((l.map (·.id)).Nodup ∧ (∀ m ∈ l, m.id ∉ seen) ∧
       ∀ m ∈ l, m.timestamp ≠ 0 ∧ m.role ≠ "" ∧ m.content ≠ "") := by
  induction l generalizing seen with
  | nil => simp [Chat.validateMsgs]
  | cons m ms ih =>
    by_cases h1 : m.id ∈ seen
    · simp [Chat.validateMsgs, h1]
    · by_cases h2 : m.timestamp = 0 ∨ m.role = "" ∨ m.content = ""
      · simp only [Chat.validateMsgs, if_neg h1, if_pos h2]
        constructor
        · intro h; exact absurd h (by simp)
        · rintro ⟨-, -, hv⟩
          have := hv m (by simp)
          rcases h2 with h | h | h
          · exact absurd h this.1
          · exact absurd h this.2.1
          · exact absurd h this.2.2
      · push_neg at h2
        simp only [Chat.validateMsgs, if_neg h1,
          if_neg (by push_neg; exact h2 :
            ¬ (m.timestamp = 0 ∨ m.role = "" ∨ m.content = "")), ih]
        constructor
        · rintro ⟨hnd, hseen, hval⟩
          refine ⟨?_, ?_, ?_⟩
          · simp only [List.map_cons, List.nodup_cons]
            refine ⟨?_, hnd⟩
            intro hmem
            obtain ⟨m', hm', hid⟩ := List.mem_map.mp hmem
            have := hseen m' hm'
            simp [hid] at this
          · intro m' hm'
            rcases List.mem_cons.mp hm' with h | h
            · rw [h]; exact h1
            · have := hseen m' h
              simp only [List.mem_cons, not_or] at this
              exact this.2
          · intro m' hm'
            rcases List.mem_cons.mp hm' with h | h
            · rw [h]; exact h2
            · exact hval m' h
        · rintro ⟨hnd, hseen, hval⟩
          simp only [List.map_cons, List.nodup_cons] at hnd
          refine ⟨hnd.2, ?_, ?_⟩
          · intro m' hm'
            simp only [List.mem_cons, not_or]
            constructor
            · intro heq
              exact hnd.1 (heq ▸ List.mem_map_of_mem (·.id) hm')
            · exact hseen m' (List.mem_cons_of_mem _ hm')
          · intro m' hm'
            exact hval m' (List.mem_cons_of_mem _ hm')

/-- The message timestamp comparator is transitive. -/
theorem msgLe_trans (a b c : Chat.ChatMessage) (hab : Chat.msgLe a b = true)
    (hbc : Chat.msgLe b c = true) : Chat.msgLe a c = true := by
  simp only [Chat.msgLe, decide_eq_true_eq] at *
  omega

/-- The message timestamp comparator is total. -/
theorem msgLe_total (a b : Chat.ChatMessage) :
    (Chat.msgLe a b || Chat.msgLe b a) = true := by
  simp only [Chat.msgLe, Bool.or_eq_true, decide_eq_true_eq]
  omega

/-- C10 counterexample: a stored thread whose single message has
distinct ids and a truthy timestamp, role and content still makes the
get-conversation procedure throw when the requesting user is not the
thread owner, contradicting the claimed exhaustive list of throw
conditions. -/
theorem chat_get_conversation_counterexample :
    (Chat.getConversationProc
        [("thread:t1", .thread ⟨"t1", "u1", [⟨"m1", "t1", "user", "hi", 5, []⟩],
          1, 1, []⟩)] "t1" "u2" none).result =
      .error "Thread does not belong to this user" ∧
    ([⟨"m1", "t1", "user", "hi", 5, []⟩] : List Chat.ChatMessage).map (·.id) =
      ["m1"] ∧ (["m1"] : List String).Nodup ∧
    (∀ m ∈ ([⟨"m1", "t1", "user", "hi", 5, []⟩] : List Chat.ChatMessage),
      m.timestamp ≠ 0 ∧ m.role ≠ "" ∧ m.content ≠ "") := by
  refine ⟨by decide, by decide, by decide, by decide⟩

/-- C10 amended: for a stored thread requested by its owner with
nonempty ids, a successful call returns the messages sorted
nondecreasing by timestamp (truncated to the last limit entries for a
truthy limit) and reports messageCount as the total number of stored
messages; and the call throws exactly when two stored messages share
an id or some stored message has a falsy timestamp, role or content. -/
theorem chat_get_conversation_cases (store : Chat.Store)
    (threadId userId : String) (limit : Option ℕ) (thread : Chat.Thread)
    (ht : threadId ≠ "") (hu : userId ≠ "")
    (hstored : Chat.getThread store ("thread:" ++ threadId) = some thread)
    (howner : thread.userId = userId) :
    (∀ res, (Chat.getConversationProc store threadId userId limit).result =
        .ok res →
      res.messages.Pairwise (fun a b => a.timestamp ≤ b.timestamp) ∧
      res.messageCount = thread.messages.length ∧
      res.totalMessages = thread.messages.length ∧
      res.messages =
        (match limit with
         | some l =>
             if l ≠ 0 then
               (thread.messages.mergeSort Chat.msgLe).drop
                 ((thread.messages.mergeSort Chat.msgLe).length - l)
             else thread.messages.mergeSort Chat.msgLe
         | none => thread.messages.mergeSort Chat.msgLe)) ∧
    ((∃ e, (Chat.getConversationProc store threadId userId limit).result =
        .error e) ↔
      (¬ (thread.messages.map (·.id)).Nodup ∨
       ∃ m ∈ thread.messages,
         m.timestamp = 0 ∨ m.role = "" ∨ m.content = "")) := by
  have hcond : ¬ (threadId = "" ∨ userId = "") := by simp [ht, hu]
  have howner2 : ¬ (thread.userId ≠ userId) := not_not_intro howner
  have hperm := List.mergeSort_perm thread.messages Chat.msgLe
  have hpermid := hperm.map (·.id)
  cases hval : Chat.validateMsgs (thread.messages.mergeSort Chat.msgLe) [] with
  | none =>
      obtain ⟨hnd, -, hall⟩ := (validateMsgs_eq_none_iff _ _).mp hval
      constructor
      · intro res hres
        simp only [Chat.getConversationProc, if_neg hcond, hstored,
          if_neg howner2, hval] at hres
        have hres2 := (Except.ok.inj hres).symm
        subst hres2
        have hsorted : (thread.messages.mergeSort Chat.msgLe).Pairwise
            (fun a b => a.timestamp ≤ b.timestamp) := by
          have := List.sorted_mergeSort msgLe_trans msgLe_total thread.messages
          exact this.imp (by intro a b h; simpa [Chat.msgLe] using h)
        refine ⟨?_, rfl, rfl, rfl⟩
        match limit with
        | none => exact hsorted
        | some l =>
            by_cases hl : l ≠ 0
            · simp only [if_pos hl]
              exact List.Pairwise.sublist (List.drop_sublist _ _) hsorted
            · simp only [if_neg hl]
              exact hsorted
      · simp only [Chat.getConversationProc, if_neg hcond, hstored,
          if_neg howner2, hval]
        constructor
        · rintro ⟨e, he⟩
          exact absurd he (by simp)
        · rintro (h | ⟨m, hm, hbad⟩)
          · exact absurd (hpermid.nodup_iff.mp hnd) h
          · have := hall m (hperm.mem_iff.mpr hm)
            rcases hbad with hb | hb | hb
            · exact absurd hb this.1
            · exact absurd hb this.2.1
            · exact absurd hb this.2.2
  | some e =>
      constructor
      · intro res hres
        simp only [Chat.getConversationProc, if_neg hcond, hstored,
          if_neg howner2, hval] at hres
        exact absurd hres (by simp)
      · simp only [Chat.getConversationProc, if_neg hcond, hstored,
          if_neg howner2, hval]
        constructor
        · intro _
          by_contra hno
          push_neg at hno
          obtain ⟨hnd, hvalid⟩ := hno
          have : Chat.validateMsgs (thread.messages.mergeSort Chat.msgLe) [] =
              none := by
            refine (validateMsgs_eq_none_iff _ _).mpr ⟨?_, by simp, ?_⟩
            · exact hpermid.nodup_iff.mpr hnd
            · intro m hm
              have := hvalid m (hperm.mem_iff.mp hm)
              push_neg at this
              exact this
          rw [this] at hval
          exact absurd hval (by simp)
        · intro _
          exact ⟨e, rfl⟩

/-- C10 amended witness: a thread with two well-formed messages stored
out of timestamp order is returned sorted with the full message count. -/
theorem chat_get_conversation_cases_witness :
    ∃ res, (Chat.getConversationProc
        [("thread:t1", .thread ⟨"t1", "u1",
          [⟨"m1", "t1", "user", "a", 5, []⟩, ⟨"m2", "t1", "user", "b", 3, []⟩],
          1, 2, []⟩)] "t1" "u1" none).result = .ok res ∧
      res.messages.Pairwise (fun a b => a.timestamp ≤ b.timestamp) ∧
      res.messageCount = 2 := by
  have h := chat_get_conversation_cases
    [("thread:t1", .thread ⟨"t1", "u1",
      [⟨"m1", "t1", "user", "a", 5, []⟩, ⟨"m2", "t1", "user", "b", 3, []⟩],
      1, 2, []⟩)] "t1" "u1" none
    ⟨"t1", "u1",
      [⟨"m1", "t1", "user", "a", 5, []⟩, ⟨"m2", "t1", "user", "b", 3, []⟩],
      1, 2, []⟩
    (by decide) (by decide) (by decide) rfl
  have hres : (Chat.getConversationProc
      [("thread:t1", .thread ⟨"t1", "u1",
        [⟨"m1", "t1", "user", "a", 5, []⟩, ⟨"m2", "t1", "user", "b", 3, []⟩],
        1, 2, []⟩)] "t1" "u1" none).result =
      .ok ⟨"t1", "u1",
        [⟨"m2", "t1", "user", "b", 3, []⟩, ⟨"m1", "t1", "user", "a", 5, []⟩],
        [], 1, 2, 2, 2⟩ := by
    simp [Chat.getConversationProc, Chat.getThread, getRec, Chat.validateMsgs,
      Chat.msgLe, List.mergeSort, List.splitInTwo, List.splitAt, List.splitAt.go,
      List.merge]
  exact ⟨_, hres, (h.1 _ hres).1, (h.1 _ hres).2.1⟩

/-- A successful findIndex points at an element satisfying the
predicate. -/
theorem findIndex_get {α : Type} (p : α → Bool) (l : List α) (i : ℕ)
    (h : findIndex p l = some i) : ∃ x, l[i]? = some x ∧ p x = true := by
  induction l generalizing i with
  | nil => simp [findIndex] at h
  | cons a l ih =>
    by_cases hp : p a
    · simp only [findIndex, if_pos hp, Option.some.injEq] at h
      subst h
      exact ⟨a, by simp, hp⟩
    · simp only [findIndex, if_neg hp, Option.map_eq_some'] at h
      obtain ⟨j, hj, hji⟩ := h
      obtain ⟨x, hx, hpx⟩ := ih j hj
      exact ⟨x, by rw [← hji]; simpa using hx, hpx⟩

/-- Reading a wish-list key after an unrelated write sees through it. -/
theorem getWishList_cons_ne (store : Wishlist.Store) (k key : String)
    (v : Wishlist.WishVal) (h : key ≠ k) :
    Wishlist.getWishList ((k, v) :: store) key = Wishlist.getWishList store key := by
  rw [Wishlist.getWishList, Wishlist.getWishList, getRec_cons_ne _ _ h]

/-- Reading the wish-list key just written returns the new record. -/
theorem getWishList_cons_self (store : Wishlist.Store) (k : String)
    (w : Wishlist.WishList) :
    Wishlist.getWishList ((k, .list w) :: store) k = some w := by
  rw [Wishlist.getWishList, getRec_cons_self]

/-- Reading a reservations key after an unrelated write sees through it. -/
theorem getResv_cons_ne (store : Wishlist.Store) (k key : String)
    (v : Wishlist.WishVal) (h : key ≠ k) :
    Wishlist.getResv ((k, v) :: store) key = Wishlist.getResv store key := by
  rw [Wishlist.getResv, Wishlist.getResv, getRec_cons_ne _ _ h]

/-- Reading the reservations key just written returns the new record. -/
theorem getResv_cons_self (store : Wishlist.Store) (k : String)
    (r : Wishlist.ReservationRec) :
    Wishlist.getResv ((k, .resv r) :: store) k = some r := by
  rw [Wishlist.getResv, getRec_cons_self]

/-- C7 counterexample: a reservation request with an empty reserver id
fails with the missing-fields error although the owner's wish list
exists and holds the available, unreserved item and the reserver
differs from the owner, contradicting the claimed exhaustive list of
failure conditions. -/
theorem wishlist_reserve_counterexample :
    (Wishlist.reserveItemProc
        [("wishlist:alice", .list ⟨"alice",
          [⟨"item-1", "Book", "d", none, none, "medium", "available",
            none, none, 0, []⟩], 0, 0⟩)] 5 "alice" "item-1" "").result =
      .error "Missing required fields: ownerId, itemId, reservedBy" ∧
    Wishlist.getWishList
        [("wishlist:alice", .list ⟨"alice",
          [⟨"item-1", "Book", "d", none, none, "medium", "available",
            none, none, 0, []⟩], 0, 0⟩)] ("wishlist:" ++ "alice") =
      some ⟨"alice", [⟨"item-1", "Book", "d", none, none, "medium", "available",
        none, none, 0, []⟩], 0, 0⟩ ∧
    findIndex (fun item => item.id == "item-1")
        [(⟨"item-1", "Book", "d", none, none, "medium", "available",
          none, none, 0, []⟩ : Wishlist.WishItem)] = some 0 ∧
    ("available" : String) = "available" ∧
    Wishlist.strTruthy none = false ∧
    ("alice" : String) ≠ "" := by
  refine ⟨?_, ?_, ?_, rfl, rfl, by decide⟩ <;> decide

/-- C7 amended: given nonempty ownerId, itemId and reservedBy, the
reserve-item procedure fails iff the owner's wish list is absent, the
item id is not in the list, the found item's status is not available,
the item already has a truthy reservedBy, or the reserver equals the
owner; on success the stored item becomes reserved with reservedBy and
reservedAt recorded, a reservation entry is appended for the reserver,
and exactly one wishlist-item-reserved block is appended. -/
theorem wishlist_reserve_cases (store : Wishlist.Store) (now : ℕ)
    (ownerId itemId reservedBy : String)
    (ho : ownerId ≠ "") (hi : itemId ≠ "") (hr : reservedBy ≠ "") :
    ((∃ e, (Wishlist.reserveItemProc store now ownerId itemId reservedBy).result =
        .error e) ↔
      (Wishlist.getWishList store ("wishlist:" ++ ownerId) = none ∨
       ∃ w, Wishlist.getWishList store ("wishlist:" ++ ownerId) = some w ∧
         (findIndex (fun item => item.id == itemId) w.items = none ∨
          ∃ i item, findIndex (fun item => item.id == itemId) w.items = some i ∧
            w.items[i]? = some item ∧
            (item.status ≠ "available" ∨ Wishlist.strTruthy item.reservedBy = true ∨
             ownerId = reservedBy)))) ∧
    (∀ res, (Wishlist.reserveItemProc store now ownerId itemId reservedBy).result =
        .ok res →
      ∃ w i item, Wishlist.getWishList store ("wishlist:" ++ ownerId) = some w ∧
        findIndex (fun item => item.id == itemId) w.items = some i ∧
        w.items[i]? = some item ∧
        item.status = "available" ∧ Wishlist.strTruthy item.reservedBy = false ∧
        ownerId ≠ reservedBy ∧
        Wishlist.getWishList
            (Wishlist.reserveItemProc store now ownerId itemId reservedBy).store
            ("wishlist:" ++ ownerId) =
          some { w with
            items := w.items.set i { item with
              status := "reserved", reservedBy := some reservedBy,
              reservedAt := some now },
            updatedAt := now } ∧
        Wishlist.getResv
            (Wishlist.reserveItemProc store now ownerId itemId reservedBy).store
            ("reservations:" ++ reservedBy) =
          some { (Wishlist.getResv store ("reservations:" ++ reservedBy)).getD
                   ⟨reservedBy, [], now, now⟩ with
            reservations :=
              ((Wishlist.getResv store ("reservations:" ++ reservedBy)).getD
                ⟨reservedBy, [], now, now⟩).reservations ++
                [⟨itemId, ownerId, item.name, now, "reserved"⟩],
            updatedAt := now } ∧
        (Wishlist.reserveItemProc store now ownerId itemId reservedBy).blocks =
          [⟨"wishlist-item-reserved", none, some ownerId, itemId, some item.name,
            some reservedBy, none, none, now⟩]) := by
  have hcond : ¬ (ownerId = "" ∨ itemId = "" ∨ reservedBy = "") := by
    simp [ho, hi, hr]
  have hwrne : ("reservations:" ++ reservedBy : String) ≠ "wishlist:" ++ ownerId :=
    ne_of_head_char 'r' 'w' (by rw [String.data_append]; rfl)
      (by rw [String.data_append]; rfl) (by decide)
  cases hw : Wishlist.getWishList store ("wishlist:" ++ ownerId) with
  | none =>
      refine ⟨⟨fun _ => Or.inl rfl,
        fun _ => ⟨"Wish list not found for user " ++ ownerId, ?_⟩⟩,
        fun res hres => ?_⟩
      · simp only [Wishlist.reserveItemProc, if_neg hcond, hw]
      · simp only [Wishlist.reserveItemProc, if_neg hcond, hw] at hres
        exact absurd hres (by simp)
  | some w =>
      cases hidx : findIndex (fun item => item.id == itemId) w.items with
      | none =>
          refine ⟨⟨fun _ => Or.inr ⟨w, rfl, Or.inl hidx⟩,
            fun _ => ⟨"Item " ++ itemId ++ " not found in wish list", ?_⟩⟩,
            fun res hres => ?_⟩
          · simp only [Wishlist.reserveItemProc, if_neg hcond, hw, hidx]
          · simp only [Wishlist.reserveItemProc, if_neg hcond, hw, hidx] at hres
            exact absurd hres (by simp)
      | some i =>
          obtain ⟨item, hget, hp⟩ := findIndex_get _ _ _ hidx
          have hitem : (w.items[i]?).getD Wishlist.defaultItem = item := by
            rw [hget]; rfl
          by_cases hc1 : item.status ≠ "available"
          · refine ⟨⟨fun _ => Or.inr ⟨w, rfl, Or.inr ⟨i, item, hidx, hget,
              Or.inl hc1⟩⟩,
              fun _ => ⟨"Item is not available. Current status: " ++ item.status,
                ?_⟩⟩, fun res hres => ?_⟩
            · simp only [Wishlist.reserveItemProc, if_neg hcond, hw, hidx, hitem,
                if_pos hc1]
            · simp only [Wishlist.reserveItemProc, if_neg hcond, hw, hidx, hitem,
                if_pos hc1] at hres
              exact absurd hres (by simp)
          · by_cases hc2 : Wishlist.strTruthy item.reservedBy = true
            · refine ⟨⟨fun _ => Or.inr ⟨w, rfl, Or.inr ⟨i, item, hidx, hget,
                Or.inr (Or.inl hc2)⟩⟩,
                fun _ => ⟨"Item is already reserved", ?_⟩⟩, fun res hres => ?_⟩
              · simp only [Wishlist.reserveItemProc, if_neg hcond, hw, hidx, hitem,
                  if_neg hc1, if_pos hc2]
              · simp only [Wishlist.reserveItemProc, if_neg hcond, hw, hidx, hitem,
                  if_neg hc1, if_pos hc2] at hres
                exact absurd hres (by simp)
            · by_cases hc3 : ownerId = reservedBy
              · refine ⟨⟨fun _ => Or.inr ⟨w, rfl, Or.inr ⟨i, item, hidx, hget,
                  Or.inr (Or.inr hc3)⟩⟩,
                  fun _ => ⟨"Cannot reserve your own item", ?_⟩⟩,
                  fun res hres => ?_⟩
                · simp only [Wishlist.reserveItemProc, if_neg hcond, hw, hidx,
                    hitem, if_neg hc1, if_neg hc2, if_pos hc3]
                · simp only [Wishlist.reserveItemProc, if_neg hcond, hw, hidx,
                    hitem, if_neg hc1, if_neg hc2, if_pos hc3] at hres
                  exact absurd hres (by simp)
              · constructor
                · constructor
                  · rintro ⟨e, he⟩
                    simp only [Wishlist.reserveItemProc, if_neg hcond, hw, hidx,
                      hitem, if_neg hc1, if_neg hc2, if_neg hc3] at he
                    exact absurd he (by simp)
                  · rintro (h | ⟨w1, hw1, h⟩)
                    · exact absurd h (by simp)
                    · obtain rfl : w = w1 := Option.some.inj hw1
                      rcases h with h | ⟨i1, item1, hidx1, hget1, h⟩
                      · rw [hidx] at h; exact absurd h (by simp)
                      · rw [hidx] at hidx1
                        obtain rfl : i = i1 := Option.some.inj hidx1
                        rw [hget] at hget1
                        obtain rfl : item = item1 := Option.some.inj hget1
                        rcases h with h | h | h
                        · exact absurd h hc1
                        · exact absurd h hc2
                        · exact absurd h hc3
                · intro res hres
                  refine ⟨w, i, item, rfl, hidx, hget, not_not.mp hc1, ?_, hc3,
                    ?_, ?_, ?_⟩
                  · simpa using hc2
                  · simp only [Wishlist.reserveItemProc, if_neg hcond, hw, hidx,
                      hitem, if_neg hc1, if_neg hc2, if_neg hc3]
                    rw [getWishList_cons_ne _ _ _ _ (Ne.symm hwrne),
                      getWishList_cons_self]
                  · simp only [Wishlist.reserveItemProc, if_neg hcond, hw, hidx,
                      hitem, if_neg hc1, if_neg hc2, if_neg hc3]
                    rw [getResv_cons_self, getResv_cons_ne _ _ _ _ hwrne]
                  · simp only [Wishlist.reserveItemProc, if_neg hcond, hw, hidx,
                      hitem, if_neg hc1, if_neg hc2, if_neg hc3]

/-- C7 amended witness: bob reserves the available item on alice's
list; the stored item becomes reserved for bob with the reservation
time recorded, bob's reservation record gains the entry, and exactly
one wishlist-item-reserved block is appended. -/
theorem wishlist_reserve_cases_witness :
    (Wishlist.reserveItemProc
        [("wishlist:alice", .list ⟨"alice",
          [⟨"item-1", "Book", "d", none, none, "medium", "available",
            none, none, 0, []⟩], 0, 0⟩)] 5 "alice" "item-1" "bob").result =
      .ok ⟨true, ⟨"item-1", "Book", "d", none, none, "medium", "reserved",
        some "bob", some 5, 0, []⟩, "alice", "bob", some 5⟩ ∧
    Wishlist.getWishList
        (Wishlist.reserveItemProc
          [("wishlist:alice", .list ⟨"alice",
            [⟨"item-1", "Book", "d", none, none, "medium", "available",
              none, none, 0, []⟩], 0, 0⟩)] 5 "alice" "item-1" "bob").store
        ("wishlist:" ++ "alice") =
      some ⟨"alice", [⟨"item-1", "Book", "d", none, none, "medium", "reserved",
        some "bob", some 5, 0, []⟩], 0, 5⟩ ∧
    Wishlist.getResv
        (Wishlist.reserveItemProc
          [("wishlist:alice", .list ⟨"alice",
            [⟨"item-1", "Book", "d", none, none, "medium", "available",
              none, none, 0, []⟩], 0, 0⟩)] 5 "alice" "item-1" "bob").store
        ("reservations:" ++ "bob") =
      some ⟨"bob", [⟨"item-1", "alice", "Book", 5, "reserved"⟩], 5, 5⟩ ∧
    (Wishlist.reserveItemProc
        [("wishlist:alice", .list ⟨"alice",
          [⟨"item-1", "Book", "d", none, none, "medium", "available",
            none, none, 0, []⟩], 0, 0⟩)] 5 "alice" "item-1" "bob").blocks =
      [⟨"wishlist-item-reserved", none, some "alice", "item-1", some "Book",
        some "bob", none, none, 5⟩] := by
  have hres : (Wishlist.reserveItemProc
      [("wishlist:alice", .list ⟨"alice",
        [⟨"item-1", "Book", "d", none, none, "medium", "available",
          none, none, 0, []⟩], 0, 0⟩)] 5 "alice" "item-1" "bob").result =
      .ok ⟨true, ⟨"item-1", "Book", "d", none, none, "medium", "reserved",
        some "bob", some 5, 0, []⟩, "alice", "bob", some 5⟩ := by decide
  have h := (wishlist_reserve_cases
      [("wishlist:alice", .list ⟨"alice",
        [⟨"item-1", "Book", "d", none, none, "medium", "available",
          none, none, 0, []⟩], 0, 0⟩)] 5 "alice" "item-1" "bob"
      (by decide) (by decide) (by decide)).2 _ hres
  obtain ⟨w, i, item, hw, hidx, hget, -, -, -, hW, hR, hB⟩ := h
  have hw2 : w = ⟨"alice", [⟨"item-1", "Book", "d", none, none, "medium",
      "available", none, none, 0, []⟩], 0, 0⟩ := by
    have h0 : Wishlist.getWishList
        [("wishlist:alice", .list ⟨"alice",
          [⟨"item-1", "Book", "d", none, none, "medium", "available",
            none, none, 0, []⟩], 0, 0⟩)] ("wishlist:" ++ "alice") =
        some ⟨"alice", [⟨"item-1", "Book", "d", none, none, "medium",
          "available", none, none, 0, []⟩], 0, 0⟩ := by decide
    rw [h0] at hw
    exact (Option.some.inj hw).symm
  subst hw2
  have hi2 : i = 0 := by
    simp only [findIndex] at hidx
    simp at hidx
    omega
  subst hi2
  have hitem2 : item = ⟨"item-1", "Book", "d", none, none, "medium",
      "available", none, none, 0, []⟩ := by
    simpa using hget.symm
  subst hitem2
  exact ⟨hres, hW, hR, hB⟩

/-- Setting the status of the first matching reservation entry makes
the first matching entry of the result carry that status. -/
theorem setFirstStatus_find (itemId status : String)
    (l : List Wishlist.ReservationEntry)
    (h : l.any (fun r => r.itemId == itemId) = true) :
    ∃ e, (Wishlist.setFirstStatus itemId status l).find?
        (fun r => r.itemId == itemId) = some e ∧ e.status = status := by
  induction l with
  | nil => simp at h
  | cons a l ih =>
    by_cases ha : (a.itemId == itemId) = true
    · refine ⟨{ a with status := status }, ?_, rfl⟩
      simp only [Wishlist.setFirstStatus, if_pos ha]
      exact List.find?_cons_of_pos _ ha
    · simp only [List.any_cons, Bool.or_eq_true] at h
      rcases h with h | h
      · exact absurd h ha
      · obtain ⟨e, he, hs⟩ := ih h
        refine ⟨e, ?_, hs⟩
        simp only [Wishlist.setFirstStatus, if_neg ha]
        exact ((@List.find?_cons_of_neg _ (fun r => r.itemId == itemId) a
          (Wishlist.setFirstStatus itemId status l) ha).trans he)

/-- C9: after a successful update-status call with a fulfilled or
cancelled status, the stored item has its reservedBy and reservedAt
cleared to null; and when the item had a previous (truthy) reserver
whose reservation record contains an entry for the item, that record
is saved with the first matching entry's status set to the same new
status. -/
theorem wishlist_update_status_clears (store : Wishlist.Store) (now : ℕ)
    (userId itemId status : String) (res : Wishlist.UpdateResult)
    (hstat : status = "fulfilled" ∨ status = "cancelled")
    (hres : (Wishlist.updateStatusProc store now userId itemId status).result =
      .ok res) :
    ∃ w i item,
      Wishlist.getWishList store ("wishlist:" ++ userId) = some w ∧
      findIndex (fun item => item.id == itemId) w.items = some i ∧
      w.items[i]? = some item ∧
      (∃ w1, Wishlist.getWishList
          (Wishlist.updateStatusProc store now userId itemId status).store
          ("wishlist:" ++ userId) = some w1 ∧
        w1.items[i]? = some { item with
          status := status, reservedBy := none, reservedAt := none } ∧
        res.item = { item with
          status := status, reservedBy := none, reservedAt := none }) ∧
      (∀ u, item.reservedBy = some u → u ≠ "" →
        ∀ rr, Wishlist.getResv store ("reservations:" ++ u) = some rr →
          rr.reservations.any (fun r => r.itemId == itemId) = true →
          ∃ rr1, Wishlist.getResv
              (Wishlist.updateStatusProc store now userId itemId status).store
              ("reservations:" ++ u) = some rr1 ∧
            rr1.reservations =
              Wishlist.setFirstStatus itemId status rr.reservations ∧
            ∃ e, rr1.reservations.find? (fun r => r.itemId == itemId) = some e ∧
              e.status = status) := by
  have hstatne : status ≠ "" := by rcases hstat with h | h <;> subst h <;> decide
  by_cases hcond : userId = "" ∨ itemId = "" ∨ status = ""
  · simp only [Wishlist.updateStatusProc, if_pos hcond] at hres
    exact absurd hres (by simp)
  · have hvalid : ¬ ¬ (status = "available" ∨ status = "reserved" ∨
        status = "fulfilled" ∨ status = "cancelled") := by
      rcases hstat with h | h
      · exact not_not_intro (Or.inr (Or.inr (Or.inl h)))
      · exact not_not_intro (Or.inr (Or.inr (Or.inr h)))
    cases hw : Wishlist.getWishList store ("wishlist:" ++ userId) with
    | none =>
        simp only [Wishlist.updateStatusProc, if_neg hcond, if_neg hvalid,
          hw] at hres
        exact absurd hres (by simp)
    | some w =>
        cases hidx : findIndex (fun item => item.id == itemId) w.items with
        | none =>
            simp only [Wishlist.updateStatusProc, if_neg hcond, if_neg hvalid,
              hw, hidx] at hres
            exact absurd hres (by simp)
        | some i =>
            obtain ⟨item, hget, -⟩ := findIndex_get _ _ _ hidx
            have hitem : (w.items[i]?).getD Wishlist.defaultItem = item := by
              rw [hget]; rfl
            have hlt : i < w.items.length := by
              rcases List.getElem?_eq_some.mp hget with ⟨hl, -⟩
              exact hl
            refine ⟨w, i, item, rfl, hidx, hget, ?_, ?_⟩
            · have hW : Wishlist.getWishList
                  (Wishlist.updateStatusProc store now userId itemId status).store
                  ("wishlist:" ++ userId) =
                  some { w with
                    items := w.items.set i { item with
                      status := status, reservedBy := none, reservedAt := none },
                    updatedAt := now } := by
                simp only [Wishlist.updateStatusProc, if_neg hcond, if_neg hvalid,
                  hw, hidx, hitem, if_pos hstat]
                exact getWishList_cons_self _ _ _
              refine ⟨_, hW, ?_, ?_⟩
              · exact List.getElem?_set_self hlt
              · simp only [Wishlist.updateStatusProc, if_neg hcond, if_neg hvalid,
                  hw, hidx, hitem, if_pos hstat] at hres
                have hre := Except.ok.inj hres
                rw [← hre]
            · intro u hu hune rr hrr hany
              have hkne : ("reservations:" ++ u : String) ≠ "wishlist:" ++ userId :=
                ne_of_head_char 'r' 'w' (by rw [String.data_append]; rfl)
                  (by rw [String.data_append]; rfl) (by decide)
              have hRv : Wishlist.getResv
                  (Wishlist.updateStatusProc store now userId itemId status).store
                  ("reservations:" ++ u) =
                  some { rr with
                    reservations :=
                      Wishlist.setFirstStatus itemId status rr.reservations,
                    updatedAt := now } := by
                simp only [Wishlist.updateStatusProc, if_neg hcond, if_neg hvalid,
                  hw, hidx, hitem, if_pos hstat, hu, if_pos hune, hrr,
                  if_pos hany]
                rw [getResv_cons_ne _ _ _ _ hkne]
                exact getResv_cons_self _ _ _
              exact ⟨_, hRv, rfl,
                setFirstStatus_find itemId status rr.reservations hany⟩

/-- C9 witness: fulfilling alice's item reserved by bob clears the
stored item's reservation fields and marks bob's matching reservation
entry fulfilled. -/
theorem wishlist_update_status_clears_witness :
    (Wishlist.updateStatusProc
        [("wishlist:alice", .list ⟨"alice",
          [⟨"item-1", "Book", "d", none, none, "medium", "reserved",
            some "bob", some 1, 0, []⟩], 0, 1⟩),
         ("reservations:bob", .resv ⟨"bob",
          [⟨"item-1", "alice", "Book", 1, "reserved"⟩], 1, 1⟩)]
        9 "alice" "item-1" "fulfilled").result =
      .ok ⟨true, ⟨"item-1", "Book", "d", none, none, "medium", "fulfilled",
        none, none, 0, []⟩, "reserved", "fulfilled"⟩ ∧
    (∃ w1, Wishlist.getWishList
        (Wishlist.updateStatusProc
          [("wishlist:alice", .list ⟨"alice",
            [⟨"item-1", "Book", "d", none, none, "medium", "reserved",
              some "bob", some 1, 0, []⟩], 0, 1⟩),
           ("reservations:bob", .resv ⟨"bob",
            [⟨"item-1", "alice", "Book", 1, "reserved"⟩], 1, 1⟩)]
          9 "alice" "item-1" "fulfilled").store ("wishlist:" ++ "alice") =
        some w1 ∧
      w1.items[0]? = some ⟨"item-1", "Book", "d", none, none, "medium",
        "fulfilled", none, none, 0, []⟩) ∧
    (∃ rr1, Wishlist.getResv
        (Wishlist.updateStatusProc
          [("wishlist:alice", .list ⟨"alice",
            [⟨"item-1", "Book", "d", none, none, "medium", "reserved",
              some "bob", some 1, 0, []⟩], 0, 1⟩),
           ("reservations:bob", .resv ⟨"bob",
            [⟨"item-1", "alice", "Book", 1, "reserved"⟩], 1, 1⟩)]
          9 "alice" "item-1" "fulfilled").store ("reservations:" ++ "bob") =
        some rr1 ∧
      ∃ e, rr1.reservations.find? (fun r => r.itemId == "item-1") = some e ∧
        e.status = "fulfilled") := by
  have hres : (Wishlist.updateStatusProc
      [("wishlist:alice", .list ⟨"alice",
        [⟨"item-1", "Book", "d", none, none, "medium", "reserved",
          some "bob", some 1, 0, []⟩], 0, 1⟩),
       ("reservations:bob", .resv ⟨"bob",
        [⟨"item-1", "alice", "Book", 1, "reserved"⟩], 1, 1⟩)]
      9 "alice" "item-1" "fulfilled").result =
      .ok ⟨true, ⟨"item-1", "Book", "d", none, none, "medium", "fulfilled",
        none, none, 0, []⟩, "reserved", "fulfilled"⟩ := by decide
  have h := wishlist_update_status_clears
    [("wishlist:alice", .list ⟨"alice",
      [⟨"item-1", "Book", "d", none, none, "medium", "reserved",
        some "bob", some 1, 0, []⟩], 0, 1⟩),
     ("reservations:bob", .resv ⟨"bob",
      [⟨"item-1", "alice", "Book", 1, "reserved"⟩], 1, 1⟩)]
    9 "alice" "item-1" "fulfilled" _ (Or.inl rfl) hres
  obtain ⟨w, i, item, hw, hidx, hget, ⟨w1, hW, hWi, -⟩, hresv⟩ := h
  have hw2 : w = ⟨"alice",
      [⟨"item-1", "Book", "d", none, none, "medium", "reserved",
        some "bob", some 1, 0, []⟩], 0, 1⟩ := by
    have h0 : Wishlist.getWishList
        [("wishlist:alice", .list ⟨"alice",
          [⟨"item-1", "Book", "d", none, none, "medium", "reserved",
            some "bob", some 1, 0, []⟩], 0, 1⟩),
         ("reservations:bob", .resv ⟨"bob",
          [⟨"item-1", "alice", "Book", 1, "reserved"⟩], 1, 1⟩)]
        ("wishlist:" ++ "alice") =
        some ⟨"alice",
          [⟨"item-1", "Book", "d", none, none, "medium", "reserved",
            some "bob", some 1, 0, []⟩], 0, 1⟩ := by decide
    rw [h0] at hw
    exact (Option.some.inj hw).symm
  subst hw2
  have hi2 : i = 0 := by
    simp only [findIndex] at hidx
    simp at hidx
    omega
  subst hi2
  have hitem2 : item = ⟨"item-1", "Book", "d", none, none, "medium", "reserved",
      some "bob", some 1, 0, []⟩ := by
    simpa using hget.symm
  subst hitem2
  obtain ⟨rr1, hRv, -, e, hfind, hst⟩ := hresv "bob" rfl (by decide)
    ⟨"bob", [⟨"item-1", "alice", "Book", 1, "reserved"⟩], 1, 1⟩
    (by decide) (by decide)
  exact ⟨hres, ⟨w1, hW, hWi⟩, ⟨rr1, hRv, e, hfind, hst⟩⟩

/-- A bisection run whose remaining iterations never meet the
tolerance performs every bracket update and returns the final
midpoint. -/
theorem tokensLoop_no_hit (c : BondingCurve.Curve) (s p : ℝ) (fuel : ℕ)
    (lh : ℝ × ℝ)
    (h : ∀ i, i < fuel →
      ¬ BondingCurve.HitPair c s p ((BondingCurve.bracketStep c s p)^[i] lh)) :
    BondingCurve.tokensLoop c s p fuel lh.1 lh.2 =
      (((BondingCurve.bracketStep c s p)^[fuel] lh).1 +
       ((BondingCurve.bracketStep c s p)^[fuel] lh).2) / 2 - s := by
  induction fuel generalizing lh with
  | zero => simp [BondingCurve.tokensLoop]
  | succ fuel ih =>
    have h0 : ¬ BondingCurve.HitPair c s p lh := by
      simpa using h 0 (Nat.succ_pos _)
    simp only [BondingCurve.HitPair] at h0
    simp only [BondingCurve.tokensLoop]
    rw [if_neg h0]
    by_cases hlt : BondingCurve.calculateIntegral c s ((lh.1 + lh.2) / 2) < p
    · have hstep : BondingCurve.bracketStep c s p lh = ((lh.1 + lh.2) / 2, lh.2) := by
        simp [BondingCurve.bracketStep, hlt]
      rw [if_pos hlt, Function.iterate_succ_apply, hstep]
      exact ih ((lh.1 + lh.2) / 2, lh.2) (fun i hi => by
        have hx := h (i + 1) (Nat.succ_lt_succ hi)
        rwa [Function.iterate_succ_apply, hstep] at hx)
    · have hstep : BondingCurve.bracketStep c s p lh = (lh.1, (lh.1 + lh.2) / 2) := by
        simp [BondingCurve.bracketStep, hlt]
      rw [if_neg hlt, Function.iterate_succ_apply, hstep]
      exact ih (lh.1, (lh.1 + lh.2) / 2) (fun i hi => by
        have hx := h (i + 1) (Nat.succ_lt_succ hi)
        rwa [Function.iterate_succ_apply, hstep] at hx)

/-- A bisection run returns at the first iteration whose midpoint cost
meets the tolerance. -/
theorem tokensLoop_hit (c : BondingCurve.Curve) (s p : ℝ) :
    ∀ (j fuel : ℕ) (lh : ℝ × ℝ), j < fuel →
      BondingCurve.HitPair c s p ((BondingCurve.bracketStep c s p)^[j] lh) →
      (∀ i, i < j →
        ¬ BondingCurve.HitPair c s p ((BondingCurve.bracketStep c s p)^[i] lh)) →
      BondingCurve.tokensLoop c s p fuel lh.1 lh.2 =
        (((BondingCurve.bracketStep c s p)^[j] lh).1 +
         ((BondingCurve.bracketStep c s p)^[j] lh).2) / 2 - s := by
  intro j
  induction j with
  | zero =>
    intro fuel lh hj hhit _
    match fuel, hj with
    | fuel + 1, _ =>
      simp only [Function.iterate_zero_apply, BondingCurve.HitPair] at hhit
      simp only [BondingCurve.tokensLoop]
      rw [if_pos hhit]
      simp
  | succ j ih =>
    intro fuel lh hj hmain hmin
    match fuel, hj with
    | fuel + 1, hj =>
      have h0 : ¬ BondingCurve.HitPair c s p lh := by
        simpa using hmin 0 (Nat.succ_pos _)
      simp only [BondingCurve.HitPair] at h0
      simp only [BondingCurve.tokensLoop]
      rw [if_neg h0]
      by_cases hlt : BondingCurve.calculateIntegral c s ((lh.1 + lh.2) / 2) < p
      · have hstep : BondingCurve.bracketStep c s p lh =
            ((lh.1 + lh.2) / 2, lh.2) := by
          simp [BondingCurve.bracketStep, hlt]
        rw [if_pos hlt, Function.iterate_succ_apply, hstep]
        rw [Function.iterate_succ_apply, hstep] at hmain
        exact ih fuel ((lh.1 + lh.2) / 2, lh.2) (Nat.lt_of_succ_lt_succ hj)
          hmain (fun i hi => by
            have hx := hmin (i + 1) (Nat.succ_lt_succ hi)
            rwa [Function.iterate_succ_apply, hstep] at hx)
      · have hstep : BondingCurve.bracketStep c s p lh =
            (lh.1, (lh.1 + lh.2) / 2) := by
          simp [BondingCurve.bracketStep, hlt]
        rw [if_neg hlt, Function.iterate_succ_apply, hstep]
        rw [Function.iterate_succ_apply, hstep] at hmain
        exact ih fuel (lh.1, (lh.1 + lh.2) / 2) (Nat.lt_of_succ_lt_succ hj)
          hmain (fun i hi => by
            have hx := hmin (i + 1) (Nat.succ_lt_succ hi)
            rwa [Function.iterate_succ_apply, hstep] at hx)

/-- C5: the bonding-curve inversion is a bounded bisection with
iteration cap 100 and absolute tolerance 1e-4: when no bracket
midpoint within the first 100 iterations has integral cost within the
tolerance of the payment it returns the bracket midpoint after the
100-iteration cap minus the current supply, and it returns early at
the first iteration j whose bracket midpoint meets the tolerance,
yielding that midpoint minus the current supply. -/
theorem calculateTokensForPayment_bisection (c : BondingCurve.Curve)
    (s p : ℝ) :
    BondingCurve.maxIterations = 100 ∧
    BondingCurve.tolerance = 1 / 10000 ∧
    ((∀ i, i < 100 → ¬ BondingCurve.TokHit c s p i) →
      BondingCurve.calculateTokensForPayment c s p =
        ((BondingCurve.bracket c s p 100).1 +
         (BondingCurve.bracket c s p 100).2) / 2 - s) ∧
    (∀ j, j < 100 → BondingCurve.TokHit c s p j →
      (∀ i, i < j → ¬ BondingCurve.TokHit c s p i) →
      BondingCurve.calculateTokensForPayment c s p =
        ((BondingCurve.bracket c s p j).1 +
         (BondingCurve.bracket c s p j).2) / 2 - s) := by
  refine ⟨rfl, rfl, ?_, ?_⟩
  · intro h
    exact tokensLoop_no_hit c s p 100 (s, s + p / c.k) h
  · intro j hj hhit hmin
    exact tokensLoop_hit c s p j 100 (s, s + p / c.k) hj hhit hmin

/-- C5 witness: on the linear curve with k 1, zero supply and payment
8, the very first midpoint 4 costs exactly 8, so the bisection returns
early with 4 tokens. -/
theorem calculateTokensForPayment_bisection_witness :
    BondingCurve.calculateTokensForPayment ⟨.linear, 1, 2, 1⟩ 0 8 = 4 := by
  have hhit : BondingCurve.TokHit ⟨.linear, 1, 2, 1⟩ 0 8 0 := by
    simp only [BondingCurve.TokHit, BondingCurve.HitPair, BondingCurve.bracket,
      Function.iterate_zero_apply, BondingCurve.calculateIntegral,
      BondingCurve.tolerance]
    norm_num
  have h := (calculateTokensForPayment_bisection ⟨.linear, 1, 2, 1⟩ 0 8).2.2.2 0
    (by norm_num) hhit (fun i hi => absurd hi (Nat.not_lt_zero i))
  rw [h]
  simp only [BondingCurve.bracket, Function.iterate_zero_apply]
  norm_num

/-- C6: for each supported curve type the calculateIntegral value is
the exact antiderivative difference of the pricing curve, equals the
interval integral of calculatePrice (for the exponential curve under
the presupposed nonzero rate), and, for positive k and fixed lower
supply, is strictly increasing in the upper supply over nonnegative
supplies. -/
theorem calculateIntegral_spec (k r : ℝ) (n : ℕ) (s1 s2 : ℝ)
    (hk : 0 < k) (hr : r ≠ 0) :
    (BondingCurve.calculateIntegral ⟨.linear, k, n, r⟩ s1 s2 =
        (k / 2) * (s2 ^ 2 - s1 ^ 2) ∧
      BondingCurve.calculateIntegral ⟨.linear, k, n, r⟩ s1 s2 =
        ∫ x in s1..s2, BondingCurve.calculatePrice ⟨.linear, k, n, r⟩ x ∧
      StrictMonoOn
        (fun t => BondingCurve.calculateIntegral ⟨.linear, k, n, r⟩ s1 t)
        (Set.Ici 0)) ∧
    (BondingCurve.calculateIntegral ⟨.polynomial, k, n, r⟩ s1 s2 =
        (k / (n + 1)) * (s2 ^ (n + 1) - s1 ^ (n + 1)) ∧
      BondingCurve.calculateIntegral ⟨.polynomial, k, n, r⟩ s1 s2 =
        ∫ x in s1..s2, BondingCurve.calculatePrice ⟨.polynomial, k, n, r⟩ x ∧
      StrictMonoOn
        (fun t => BondingCurve.calculateIntegral ⟨.polynomial, k, n, r⟩ s1 t)
        (Set.Ici 0)) ∧
    (BondingCurve.calculateIntegral ⟨.exponential, k, n, r⟩ s1 s2 =
        (k / r) * (Real.exp (r * s2) - Real.exp (r * s1)) ∧
      BondingCurve.calculateIntegral ⟨.exponential, k, n, r⟩ s1 s2 =
        ∫ x in s1..s2, BondingCurve.calculatePrice ⟨.exponential, k, n, r⟩ x ∧
      StrictMonoOn
        (fun t => BondingCurve.calculateIntegral ⟨.exponential, k, n, r⟩ s1 t)
        (Set.Ici 0)) := by
  refine ⟨⟨?_, ?_, ?_⟩, ⟨?_, ?_, ?_⟩, ⟨?_, ?_, ?_⟩⟩
  · simp only [BondingCurve.calculateIntegral]
    ring
  · simp only [BondingCurve.calculateIntegral, BondingCurve.calculatePrice]
    rw [intervalIntegral.integral_const_mul, integral_id]
    ring
  · intro a ha b hb hab
    simp only [BondingCurve.calculateIntegral]
    have hab2 : a * a < b * b := mul_self_lt_mul_self (Set.mem_Ici.mp ha) hab
    have hk2 : (0 : ℝ) < k / 2 := by positivity
    exact mul_lt_mul_of_pos_left (by linarith) hk2
  · simp only [BondingCurve.calculateIntegral]
  · simp only [BondingCurve.calculateIntegral, BondingCurve.calculatePrice]
    rw [intervalIntegral.integral_const_mul, integral_pow]
    ring
  · intro a ha b hb hab
    simp only [BondingCurve.calculateIntegral]
    have hab2 : a ^ (n + 1) < b ^ (n + 1) :=
      pow_lt_pow_left₀ hab (Set.mem_Ici.mp ha) (Nat.succ_ne_zero n)
    have hkn : (0 : ℝ) < k / (n + 1) := by positivity
    exact mul_lt_mul_of_pos_left (by linarith) hkn
  · simp only [BondingCurve.calculateIntegral]
  · have hderiv : ∀ x ∈ Set.uIcc s1 s2,
        HasDerivAt (fun y => (k / r) * Real.exp (r * y))
          (k * Real.exp (r * x)) x := by
      intro x _
      have h1 : HasDerivAt (fun y : ℝ => r * y) r x := by
        simpa using (hasDerivAt_id x).const_mul r
      have h3 := h1.exp.const_mul (k / r)
      have he : k / r * (Real.exp (r * x) * r) = k * Real.exp (r * x) := by
        field_simp
        ring
      rwa [he] at h3
    have hint : IntervalIntegrable (fun x => k * Real.exp (r * x))
        MeasureTheory.volume s1 s2 := by
      apply Continuous.intervalIntegrable
      fun_prop
    have hfe := intervalIntegral.integral_eq_sub_of_hasDerivAt hderiv hint
    simp only [BondingCurve.calculateIntegral, BondingCurve.calculatePrice]
    rw [hfe]
    ring
  · intro a ha b hb hab
    simp only [BondingCurve.calculateIntegral]
    rcases lt_or_gt_of_ne hr with hneg | hpos
    · have h1 : r * b < r * a := by nlinarith
      have h2 : Real.exp (r * b) < Real.exp (r * a) := Real.exp_lt_exp.mpr h1
      have hkr : k / r < 0 := div_neg_of_pos_of_neg hk hneg
      have hmul := mul_lt_mul_of_neg_left
        (show Real.exp (r * b) - Real.exp (r * s1) <
          Real.exp (r * a) - Real.exp (r * s1) by linarith) hkr
      exact hmul
    · have h1 : r * a < r * b := by nlinarith
      have h2 : Real.exp (r * a) < Real.exp (r * b) := Real.exp_lt_exp.mpr h1
      have hkr : (0 : ℝ) < k / r := div_pos hk hpos
      exact mul_lt_mul_of_pos_left (by linarith) hkr

/-- C6 witness: at k 1, r 1, n 1 the linear integral over the unit
interval equals the interval integral of the price, and the
exponential integral is strictly increasing on nonnegative supplies. -/
theorem calculateIntegral_spec_witness :
    (0 : ℝ) < 1 ∧ (1 : ℝ) ≠ 0 ∧
    BondingCurve.calculateIntegral ⟨.linear, 1, 1, 1⟩ 0 1 =
      ∫ x in (0:ℝ)..1, BondingCurve.calculatePrice ⟨.linear, 1, 1, 1⟩ x ∧
    StrictMonoOn
      (fun t => BondingCurve.calculateIntegral ⟨.exponential, 1, 1, 1⟩ 0 t)
      (Set.Ici 0) := by
  have h := calculateIntegral_spec 1 1 1 0 1 one_pos one_ne_zero
  exact ⟨one_pos, one_ne_zero, h.1.2.1, h.2.2.2.2⟩

/-- The integer code decodes back to the integer. -/
theorem intDecode_intCode (z : ℤ) : Storage.intDecode (Storage.intCode z) = z := by
  cases z with
  | ofNat n =>
      simp only [Storage.intCode, Storage.intDecode]
      rw [if_pos (by omega)]
      congr 1
      omega
  | negSucc n =>
      simp only [Storage.intCode, Storage.intDecode]
      rw [if_neg (by omega)]
      congr 1
      omega

/-- Every canonical encoding is nonempty. -/
theorem encode_length_pos (v : Storage.JsonVal) :
    1 ≤ (Storage.encode v).length := by
  cases v <;> simp [Storage.encode, Storage.encStr]

/-- Decryption under the same symmetric key undoes encryption. -/
theorem symDecrypt_symEncrypt (key : ℕ) (bs : List ℕ) :
    Storage.symDecrypt key (Storage.symEncrypt key bs) = bs := by
  simp [Storage.symDecrypt, Storage.symEncrypt, List.map_map, Function.comp_def]

/-- The length of a string is the length of its character data. -/
theorem string_length_data (s : String) : s.length = s.data.length := rfl

/-- Decoding a string payload recovers the string. -/
theorem decode_encStr (s : String) (rest : List ℕ) :
    ((s.data.map Char.toNat ++ rest).take s.length).map Char.ofNat = s.data ∧
    (s.data.map Char.toNat ++ rest).drop s.length = rest := by
  have hsl : s.length = (s.data.map Char.toNat).length := by
    rw [List.length_map, string_length_data]
  constructor
  · rw [hsl, List.take_left, List.map_map]
    have hc : List.map (Char.ofNat ∘ Char.toNat) s.data = List.map id s.data :=
      List.map_congr_left (fun c _ => Char.ofNat_toNat c)
    rw [hc, List.map_id]
  · rw [hsl, List.drop_left]

/-- The canonical decoder inverts the canonical encoder given enough
fuel for the encoded length (together with the element-list and
field-list versions). -/
theorem decode_encode_all (fuel : ℕ) :
    (∀ (v : Storage.JsonVal) (rest : List ℕ),
      (Storage.encode v).length ≤ fuel →
      Storage.decode fuel (Storage.encode v ++ rest) = some (v, rest)) ∧
    (∀ (l : List Storage.JsonVal) (rest : List ℕ),
      (Storage.encodeList l).length ≤ fuel →
      Storage.decodeList fuel l.length (Storage.encodeList l ++ rest) =
        some (l, rest)) ∧
    (∀ (kvs : List (String × Storage.JsonVal)) (rest : List ℕ),
      (Storage.encodeObj kvs).length ≤ fuel →
      Storage.decodeObj fuel kvs.length (Storage.encodeObj kvs ++ rest) =
        some (kvs, rest)) := by
  induction fuel with
  | zero =>
      refine ⟨fun v rest h => ?_, fun l rest h => ?_, fun kvs rest h => ?_⟩
      · have := encode_length_pos v
        omega
      · cases l with
        | nil => simp [Storage.encodeList, Storage.decodeList]
        | cons v vs =>
            have := encode_length_pos v
            simp only [Storage.encodeList, List.length_append] at h
            omega
      · cases kvs with
        | nil => simp [Storage.encodeObj, Storage.decodeObj]
        | cons kv kvs =>
            have := encode_length_pos kv.2
            obtain ⟨key, v⟩ := kv
            simp only [Storage.encodeObj, Storage.encStr, List.length_append,
              List.length_cons] at h
            omega
  | succ fuel ih =>
      obtain ⟨ihA, ihB, ihC⟩ := ih
      have hA : ∀ (v : Storage.JsonVal) (rest : List ℕ),
          (Storage.encode v).length ≤ fuel + 1 →
          Storage.decode (fuel + 1) (Storage.encode v ++ rest) = some (v, rest) := by
        intro v rest hlen
        match v with
        | .null => simp [Storage.encode, Storage.decode]
        | .bool b => cases b <;> simp [Storage.encode, Storage.decode]
        | .num q =>
            simp [Storage.encode, Storage.decode, intDecode_intCode,
              Rat.num_div_den]
        | .str s =>
            simp only [Storage.encode, Storage.encStr, List.cons_append]
            rw [Storage.decode]
            rw [if_pos (by rw [List.length_append, List.length_map,
              string_length_data]; omega)]
            rw [(decode_encStr s rest).1, (decode_encStr s rest).2]
        | .arr l =>
            have hlen2 : (Storage.encodeList l).length ≤ fuel := by
              simp [Storage.encode] at hlen
              omega
            simp only [Storage.encode, List.cons_append]
            rw [Storage.decode]
            rw [ihB l rest hlen2]
        | .obj kvs =>
            have hlen2 : (Storage.encodeObj kvs).length ≤ fuel := by
              simp [Storage.encode] at hlen
              omega
            simp only [Storage.encode, List.cons_append]
            rw [Storage.decode]
            rw [ihC kvs rest hlen2]
      refine ⟨hA, ?_, ?_⟩
      · intro l
        induction l with
        | nil =>
            intro rest _
            simp [Storage.encodeList, Storage.decodeList]
        | cons v vs ihl =>
            intro rest hlen
            simp only [Storage.encodeList, List.length_append] at hlen
            simp only [Storage.encodeList, List.length_cons, List.append_assoc]
            rw [Storage.decodeList]
            simp only [hA v (Storage.encodeList vs ++ rest) (by omega),
              ihl rest (by omega)]
      · intro kvs
        induction kvs with
        | nil =>
            intro rest _
            simp [Storage.encodeObj, Storage.decodeObj]
        | cons kv kvs ihc =>
            intro rest hlen
            obtain ⟨key, v⟩ := kv
            simp only [Storage.encodeObj, Storage.encStr, List.length_append,
              List.length_cons, List.length_map] at hlen
            simp only [Storage.encodeObj, Storage.encStr, List.length_cons,
              List.cons_append, List.append_assoc]
            rw [Storage.decodeObj]
            rw [if_pos (by rw [List.length_append, List.length_map,
              string_length_data]; omega)]
            rw [(decode_encStr key (Storage.encode v ++
              (Storage.encodeObj kvs ++ rest))).2]
            simp only [hA v (Storage.encodeObj kvs ++ rest) (by omega),
              ihc rest (by omega)]
            rw [(decode_encStr key (Storage.encode v ++
              (Storage.encodeObj kvs ++ rest))).1]

/-- The decoder inverts the encoder at the encoded length itself. -/
theorem decode_encode (v : Storage.JsonVal) (rest : List ℕ) :
    Storage.decode (Storage.encode v).length (Storage.encode v ++ rest) =
      some (v, rest) :=
  (decode_encode_all (Storage.encode v).length).1 v rest le_rfl

/-- C4: for every id and value, saveData followed by loadData returns
a value equal to the one saved, for both encrypted false and
encrypted true; and for an encrypted write the raw persisted payload
bytes differ from the canonical encoding of the value. -/
theorem storage_roundtrip (st : Storage.StorageState) (id : String)
    (v : Storage.JsonVal) (encrypted : Bool) (freshKey : ℕ) :
    Storage.loadData (Storage.saveData st id v encrypted freshKey) id =
      some v ∧
    (encrypted = true →
      (getRec (Storage.saveData st id v encrypted freshKey).records id).map
          (·.payload) ≠ some (Storage.encode v)) := by
  cases encrypted with
  | false =>
      refine ⟨?_, fun h => absurd h (by simp)⟩
      simp only [Storage.saveData, Storage.loadData]
      rw [getRec_cons_self]
      have hd := decode_encode v []
      rw [List.append_nil] at hd
      simp [hd]
  | true =>
      have hk : Storage.unwrapKey st.secret (Storage.wrapKey st.secret freshKey) =
          freshKey := by simp [Storage.unwrapKey, Storage.wrapKey]
      constructor
      · simp only [Storage.saveData, Storage.loadData]
        rw [getRec_cons_self]
        have hd := decode_encode v []
        rw [List.append_nil] at hd
        have hlen : (Storage.symEncrypt freshKey (Storage.encode v)).length =
            (Storage.encode v).length := by simp [Storage.symEncrypt]
        simp [hk, symDecrypt_symEncrypt, hlen, hd]
      · intro _
        simp only [Storage.saveData]
        rw [getRec_cons_self]
        intro hcontra
        have hcontra2 : Storage.symEncrypt freshKey (Storage.encode v) =
            Storage.encode v := by
          simpa using hcontra
        obtain ⟨a, t, hv⟩ : ∃ a t, Storage.encode v = a :: t := by
          have hp := encode_length_pos v
          cases hc : Storage.encode v with
          | nil => rw [hc] at hp; simp at hp
          | cons a t => exact ⟨a, t, rfl⟩
        rw [hv] at hcontra2
        simp only [Storage.symEncrypt, List.map_cons, List.cons.injEq]
          at hcontra2
        omega

/-- C4 witness: an encrypted object survives the save and load round
trip with ciphertext differing from the canonical bytes, and a plain
string value round-trips unencrypted. -/
theorem storage_roundtrip_witness :
    Storage.loadData (Storage.saveData ⟨7, [], []⟩ "user-123"
        (.obj [("name", .str "Alice"), ("balance", .num 100)]) true 5)
        "user-123" =
      some (.obj [("name", .str "Alice"), ("balance", .num 100)]) ∧
    (getRec (Storage.saveData ⟨7, [], []⟩ "user-123"
        (.obj [("name", .str "Alice"), ("balance", .num 100)]) true 5).records
        "user-123").map (·.payload) ≠
      some (Storage.encode
        (.obj [("name", .str "Alice"), ("balance", .num 100)])) ∧
    Storage.loadData (Storage.saveData ⟨7, [], []⟩ "k" (.str "v") false 0)
        "k" = some (.str "v") := by
  have h1 := storage_roundtrip ⟨7, [], []⟩ "user-123"
    (.obj [("name", .str "Alice"), ("balance", .num 100)]) true 5
  have h2 := storage_roundtrip ⟨7, [], []⟩ "k" (.str "v") false 0
  exact ⟨h1.1, h1.2 rfl, h2.1⟩

end LocalChain
